import Mathlib

/-!
# Shallow embedding of `JustTimelockUpgradeable.sol`

This file embeds the threat-tiered timelock contract
(`src/contracts/JustTimelockUpgradeable.sol`, Solidity 0.8.20) into Lean 4
and proves properties of its queueing / execution / cancellation /
failure-retry state machine.

Modelling conventions:

* Addresses are `Nat` (`0` plays the role of `address(0)`); byte strings are
  `List Nat`.
* `uint256` arithmetic is modelled with `Nat`.  The contract only adds small
  time quantities (`block.timestamp + delay`, `eta + gracePeriod`), far from
  `2^256`, so wrap-around is immaterial.
* `keccak256 (abi.encode (target, value, data, eta))` is modelled as the
  injective content tuple `TxKey` itself (keccak is assumed collision-free).
* Each `external` function becomes a Lean function from the pre-state and the
  call environment (`block.timestamp`, `msg.sender`, the token oracle, the
  outcome of the one external `call`) to `Except TimelockError (state × events × return-data)`.
  Following EVM semantics, returning `.error e` models `revert`: every state
  write and event of the reverted call frame is discarded, so the caller
  observes the unchanged pre-state.
* The external low-level `call` is an oracle: its success flag and return
  bytes are inputs (`callSuccess`, `callRet`).  Reentrancy is not modelled
  (all embedded calls are `nonReentrant` in the source).
* OpenZeppelin `AccessControlEnumerableUpgradeable` is embedded as a
  `Role → List Addr` member table: `grantRole` appends when absent,
  `revokeRole` removes by swap-with-last-and-pop (the `EnumerableSet`
  discipline), and the public `grantRole`/`revokeRole` entry points check the
  caller for the role's admin role, which this contract never changes from
  `DEFAULT_ADMIN_ROLE`.
-/

namespace Timelock

/-- Account addresses (`address`); `0` is `address(0)`. -/
abbrev Addr := Nat

/-- Byte strings (`bytes`); each entry is one byte. -/
abbrev Bytes := List Nat

/-- `enum ThreatLevel { LOW, MEDIUM, HIGH, CRITICAL }`. -/
inductive ThreatLevel where
  | LOW
  | MEDIUM
  | HIGH
  | CRITICAL
deriving DecidableEq, Repr

/-- Numeric severity of a threat level, inducing the order
`LOW < MEDIUM < HIGH < CRITICAL` used for hierarchy validation. -/
def ThreatLevel.severity : ThreatLevel → Nat
  | .LOW => 0
  | .MEDIUM => 1
  | .HIGH => 2
  | .CRITICAL => 3

/-- The role identifiers of the contract (each a `bytes32` constant in the
source, plus OpenZeppelin's `DEFAULT_ADMIN_ROLE`). -/
inductive Role where
  | DEFAULT_ADMIN
  | ADMIN
  | PROPOSER
  | EXECUTOR
  | CANCELLER
  | GUARDIAN
  | GOVERNANCE
  | MINTER
  | TIMELOCK_ADMIN
deriving DecidableEq, Repr

/-- The content of `keccak256(abi.encode(target, value, data, eta))`,
modelled as the (injective) tuple being hashed. -/
structure TxKey where
  target : Addr
  value : Nat
  data : Bytes
  eta : Nat
deriving DecidableEq, Repr

/-- `keccak256(abi.encode(target, value, data, eta))`, modelled as an
injective content hash. -/
def txHashOf (target : Addr) (value : Nat) (data : Bytes) (eta : Nat) : TxKey :=
  ⟨target, value, data, eta⟩

/-- `struct TimelockTransaction`. -/
structure TimelockTransaction where
  target : Addr
  value : Nat
  data : Bytes
  eta : Nat
  executed : Bool
  canceled : Bool
deriving DecidableEq, Repr

/-- The all-zero record a Solidity mapping returns for an absent key. -/
def defaultTx : TimelockTransaction :=
  { target := 0, value := 0, data := [], eta := 0, executed := false, canceled := false }

/-- The custom errors of the contract, plus the reverts raised by the
OpenZeppelin base contracts (`MissingRole` for `onlyRole` /
`AccessControl` checks, `EnforcedPause`/`ExpectedPause` for `Pausable`,
`RevertMsg` for a string `revert`). -/
inductive TimelockError where
  | ZeroAddress (param : String)
  | ZeroDelay
  | DelayTooShort (provided minimum : Nat)
  | DelayTooLong (provided maximum : Nat)
  | TxNotQueued (txHash : TxKey)
  | TxAlreadyQueued (txHash : TxKey)
  | TxAlreadyExecuted (txHash : TxKey)
  | TxNotReady (txHash : TxKey) (eta currentTime : Nat)
  | TxExpired (txHash : TxKey) (eta gracePeriod currentTime : Nat)
  | CallFailed (target : Addr) (data : Bytes)
  | NotAuthorized (caller : Addr) (role : Option Role)
  | InvalidParams
  | NoTokenHolding (caller : Addr)
  | AlreadyCanceled (txHash : TxKey)
  | DelayHierarchyViolation
  | TransactionNotExpired (txHash : TxKey) (eta gracePeriod currentTime : Nat)
  | TransactionNotPreviouslyFailed (txHash : TxKey)
  | MissingRole (caller : Addr) (role : Role)
  | EnforcedPause
  | ExpectedPause
  | RevertMsg (msg : String)
deriving DecidableEq, Repr

/-- The events of the contract (payloads as in the source; the few events
of configuration setters not needed by any proof keep their arguments). -/
inductive Event where
  | TransactionQueued (txHash : TxKey) (target : Addr) (value : Nat) (data : Bytes)
      (eta : Nat) (threatLevel : ThreatLevel)
  | TransactionExecuted (txHash : TxKey) (target : Addr) (value : Nat) (data : Bytes)
  | TransactionCanceled (txHash : TxKey)
  | DelaysUpdated (newMinDelay newMaxDelay newGracePeriod : Nat)
  | GovernanceRoleTransferred (oldGovernance newGovernance : Addr)
  | GovernanceRoleChanged (account : Addr) (isGranted : Bool)
  | JustTokenSet (tokenAddress : Addr)
  | ThreatLevelDelaysUpdated (lowDelay mediumDelay highDelay criticalDelay : Nat)
  | FunctionThreatLevelSet (selector : Bytes) (level : ThreatLevel)
  | AddressThreatLevelSet (target : Addr) (level : ThreatLevel)
  | RoleGranted (role : Role) (account : Addr)
  | RoleRevoked (role : Role) (account : Addr)
  | ContractPaused (guardian : Addr)
  | ContractUnpaused (guardian : Addr)
  | ContractInitialized (admin : Addr) (minDelay : Nat)
  | TransactionExecutionFailed (txHash : TxKey) (target : Addr) (reason : String)
  | TransactionSubmitted (txHash : TxKey) (proposer : Addr)
  | ExecutorThresholdUpdated (newThreshold : Nat)
  | ExpiredTransactionExecuted (txHash : TxKey) (target : Addr) (value : Nat) (data : Bytes)
  | FailedTransactionRetried (txHash : TxKey) (target : Addr) (value : Nat) (data : Bytes)
deriving DecidableEq, Repr

/-- The contract's storage, plus `selfAddress` (the value of
`address(this)`; several functions accept the contract itself as caller). -/
structure TimelockState where
  minDelay : Nat
  maxDelay : Nat
  gracePeriod : Nat
  minExecutorTokenThreshold : Nat
  lowThreatDelay : Nat
  mediumThreatDelay : Nat
  highThreatDelay : Nat
  criticalThreatDelay : Nat
  functionThreatLevels : Bytes → ThreatLevel
  addressThreatLevels : Addr → ThreatLevel
  justToken : Addr
  timelockTransactions : TxKey → TimelockTransaction
  queuedTransactions : TxKey → Bool
  failedTransactions : TxKey → Bool
  roleMembers : Role → List Addr
  paused : Bool
  selfAddress : Addr

/-- Pointwise update of a keyed table (a Solidity mapping write). -/
def upd {κ β : Type} [DecidableEq κ] (f : κ → β) (k : κ) (v : β) : κ → β :=
  fun x => if x = k then v else f x

@[simp] theorem upd_same {κ β : Type} [DecidableEq κ] (f : κ → β) (k : κ) (v : β) :
    upd f k v k = v := by simp [upd]

@[simp] theorem upd_other {κ β : Type} [DecidableEq κ] (f : κ → β) (k : κ) (v : β)
    (x : κ) (h : x ≠ k) : upd f k v x = f x := by simp [upd, h]

/-- `hasRole(role, account)` over the enumerable member table. -/
def hasRole (s : TimelockState) (role : Role) (account : Addr) : Bool :=
  (s.roleMembers role).contains account

/-- `getRoleMemberCount(role)`. -/
def getRoleMemberCount (s : TimelockState) (role : Role) : Nat :=
  (s.roleMembers role).length

/-- `EnumerableSet.add`: append the account when absent. -/
def addMember (l : List Addr) (a : Addr) : List Addr :=
  if l.contains a then l else l ++ [a]

/-- `EnumerableSet.remove`: replace the account's slot with the last element
and pop the last element (swap-and-pop); no-op when absent. -/
def removeMember (l : List Addr) (a : Addr) : List Addr :=
  match l.findIdx? (fun x => x = a) with
  | none => l
  | some i => (l.set i (l.getLast?.getD 0)).dropLast

/-- `_grantRole` (internal, unchecked): add to the member set. -/
def grantRoleInternal (s : TimelockState) (role : Role) (account : Addr) : TimelockState :=
  { s with roleMembers := upd s.roleMembers role (addMember (s.roleMembers role) account) }

/-- `_revokeRole` (internal, unchecked): remove from the member set. -/
def revokeRoleInternal (s : TimelockState) (role : Role) (account : Addr) : TimelockState :=
  { s with roleMembers := upd s.roleMembers role (removeMember (s.roleMembers role) account) }

/-- OpenZeppelin public `revokeRole`: `onlyRole(getRoleAdmin(role))`, where
the admin of every role in this contract is `DEFAULT_ADMIN_ROLE`. -/
def revokeRole (s : TimelockState) (caller : Addr) (role : Role) (account : Addr) :
    Except TimelockError TimelockState :=
  if hasRole s .DEFAULT_ADMIN caller = false then
    .error (.MissingRole caller .DEFAULT_ADMIN)
  else
    .ok (revokeRoleInternal s role account)

/-- OpenZeppelin public `grantRole`: `onlyRole(getRoleAdmin(role))`. -/
def grantRole (s : TimelockState) (caller : Addr) (role : Role) (account : Addr) :
    Except TimelockError TimelockState :=
  if hasRole s .DEFAULT_ADMIN caller = false then
    .error (.MissingRole caller .DEFAULT_ADMIN)
  else
    .ok (grantRoleInternal s role account)

/-- `getThreatLevel(target, data)`: address-level override first, then the
payload's leading 4-byte selector, defaulting to `LOW`. -/
def getThreatLevel (s : TimelockState) (target : Addr) (data : Bytes) : ThreatLevel :=
  let addressLevel := s.addressThreatLevels target
  if addressLevel ≠ ThreatLevel.LOW then
    addressLevel
  else if 4 ≤ data.length then
    let selector := data.take 4
    let functionLevel := s.functionThreatLevels selector
    if functionLevel ≠ ThreatLevel.LOW then functionLevel
    else ThreatLevel.LOW
  else ThreatLevel.LOW

/-- `getDelayForThreatLevel(level)`. -/
def getDelayForThreatLevel (s : TimelockState) (level : ThreatLevel) : Nat :=
  if level = ThreatLevel.CRITICAL then s.criticalThreatDelay
  else if level = ThreatLevel.HIGH then s.highThreatDelay
  else if level = ThreatLevel.MEDIUM then s.mediumThreatDelay
  else s.lowThreatDelay

/-- `isAuthorizedByTokens(user)`.  `balanceOf` is the external token oracle;
`none` models a reverting `balanceOf` call, which is caught and treated as
unauthorized. -/
def isAuthorizedByTokens (s : TimelockState) (balanceOf : Addr → Option Nat)
    (user : Addr) : Bool :=
  if s.justToken = 0 then false
  else
    match balanceOf user with
    | some balance => decide (s.minExecutorTokenThreshold ≤ balance)
    | none => false

/-- Result payload of a state-changing external function: the post-state,
the events it emitted, and its `bytes` return value. -/
abbrev CallResult := TimelockState × List Event × Bytes

/-- `initialize(initialMinDelay, proposers, executors, admin)`.
The keccak-derived default selector table of the initializer is modelled by
`defaultSelectors`; `selfAddress` is the deployed proxy address. -/
def defaultSelectors : Bytes → ThreatLevel :=
  -- Function selectors are keccak prefixes; they are modelled as fixed,
  -- pairwise distinct 4-byte constants (the first two are the real
  -- `transfer`/`approve` selectors, the rest are placeholders for hashes
  -- not computed here).
  fun sel =>
    if sel = [0xa9, 0x05, 0x9c, 0xbb] then ThreatLevel.LOW        -- transfer(address,uint256)
    else if sel = [0x09, 0x5e, 0xa7, 0xb3] then ThreatLevel.LOW   -- approve(address,uint256)
    else if sel = [0x01, 0x00, 0x00, 0x01] then ThreatLevel.MEDIUM -- updateDelays
    else if sel = [0x01, 0x00, 0x00, 0x02] then ThreatLevel.MEDIUM -- updateThreatLevelDelays
    else if sel = [0x01, 0x00, 0x00, 0x03] then ThreatLevel.MEDIUM -- updateGovParam
    else if sel = [0x01, 0x00, 0x00, 0x04] then ThreatLevel.HIGH   -- grantContractRole
    else if sel = [0x01, 0x00, 0x00, 0x05] then ThreatLevel.HIGH   -- revokeContractRole
    else if sel = [0x01, 0x00, 0x00, 0x06] then ThreatLevel.CRITICAL -- upgradeTo
    else if sel = [0x01, 0x00, 0x00, 0x07] then ThreatLevel.CRITICAL -- upgradeToAndCall
    else if sel = [0x01, 0x00, 0x00, 0x08] then ThreatLevel.HIGH   -- governanceMint
    else if sel = [0x01, 0x00, 0x00, 0x09] then ThreatLevel.HIGH   -- governanceBurn
    else ThreatLevel.LOW

/-- `_setupRole` loop over a list of accounts, skipping `address(0)`. -/
def setupRoleAll (s : TimelockState) (role : Role) : List Addr → TimelockState
  | [] => s
  | a :: rest =>
      setupRoleAll (if a ≠ 0 then grantRoleInternal s role a else s) role rest

/-- `initialize(initialMinDelay, proposers, executors, admin)` (the name
is a reserved word in Lean, hence `initTimelock`). -/
def initTimelock (initialMinDelay : Nat) (proposers executors : List Addr)
    (admin : Addr) (selfAddress : Addr) : Except TimelockError TimelockState :=
  if initialMinDelay = 0 then .error .ZeroDelay
  else if admin = 0 then .error (.ZeroAddress "admin")
  else
    let s0 : TimelockState :=
      { minDelay := initialMinDelay
        maxDelay := 2592000              -- 30 days in seconds
        gracePeriod := 14 * 86400        -- 14 days
        minExecutorTokenThreshold := 10 ^ 16
        lowThreatDelay := 1 * 86400      -- 1 day
        mediumThreatDelay := 3 * 86400   -- 3 days
        highThreatDelay := 7 * 86400     -- 7 days
        criticalThreatDelay := 14 * 86400 -- 14 days
        functionThreatLevels := defaultSelectors
        addressThreatLevels := fun _ => ThreatLevel.LOW
        justToken := 0
        timelockTransactions := fun _ => defaultTx
        queuedTransactions := fun _ => false
        failedTransactions := fun _ => false
        roleMembers := fun _ => []
        paused := false
        selfAddress := selfAddress }
    let s1 := grantRoleInternal s0 .DEFAULT_ADMIN admin
    let s2 := grantRoleInternal s1 .ADMIN admin
    let s3 := grantRoleInternal s2 .TIMELOCK_ADMIN admin
    let s4 := setupRoleAll s3 .PROPOSER proposers
    let s5 := setupRoleAll s4 .EXECUTOR executors
    let s6 := grantRoleInternal s5 .CANCELLER admin
    let s7 := grantRoleInternal s6 .GUARDIAN admin
    let s8 := grantRoleInternal s7 .GOVERNANCE admin
    .ok s8

/-- `setJustToken(tokenAddress)` (`onlyRole(ADMIN_ROLE)`). -/
def setJustToken (s : TimelockState) (caller tokenAddress : Addr) :
    Except TimelockError (TimelockState × List Event) :=
  if hasRole s .ADMIN caller = false then .error (.MissingRole caller .ADMIN)
  else if tokenAddress = 0 then .error (.ZeroAddress "tokenAddress")
  else .ok ({ s with justToken := tokenAddress }, [.JustTokenSet tokenAddress])

/-- `executeExpiredTransaction(txHash)`.  `callSuccess`/`callRet` are the
outcome of the one external `target.call{value}(data)`. -/
def executeExpiredTransaction (s : TimelockState) (now : Nat) (caller : Addr)
    (txHash : TxKey) (callSuccess : Bool) (callRet : Bytes) :
    Except TimelockError CallResult :=
  if s.paused then .error .EnforcedPause
  else if s.queuedTransactions txHash = false then .error (.TxNotQueued txHash)
  else
    let transaction := s.timelockTransactions txHash
    if transaction.executed then .error (.TxAlreadyExecuted txHash)
    else if transaction.canceled then .error (.AlreadyCanceled txHash)
    else if now ≤ transaction.eta + s.gracePeriod then
      .error (.TransactionNotExpired txHash transaction.eta s.gracePeriod now)
    else if hasRole s .ADMIN caller = false ∧ hasRole s .GOVERNANCE caller = false then
      .error (.NotAuthorized caller none)
    else
      let target := transaction.target
      let value := transaction.value
      let data := transaction.data
      -- Update state before external interaction
      let s1 := { s with
        timelockTransactions :=
          upd s.timelockTransactions txHash { transaction with executed := true } }
      if callSuccess = false then
        -- Mark as failed but do not revert
        let s2 := { s1 with failedTransactions := upd s1.failedTransactions txHash true }
        .ok (s2,
          [.ExpiredTransactionExecuted txHash target value data,
           .TransactionExecutionFailed txHash target "call reverted"],
          callRet)
      else
        .ok (s1, [.ExpiredTransactionExecuted txHash target value data], callRet)

/-- `updateExecutorTokenThreshold(newThreshold)` (Admin, Governance, or the
contract itself). -/
def updateExecutorTokenThreshold (s : TimelockState) (caller : Addr)
    (newThreshold : Nat) : Except TimelockError (TimelockState × List Event) :=
  if hasRole s .ADMIN caller = false ∧ hasRole s .GOVERNANCE caller = false ∧
      caller ≠ s.selfAddress then
    .error (.NotAuthorized caller none)
  else
    .ok ({ s with minExecutorTokenThreshold := newThreshold },
      [.ExecutorThresholdUpdated newThreshold])

/-- `revokeContractRole(role, account)` (`onlyRole(ADMIN_ROLE)` plus the
last-holder guards; the inner OpenZeppelin `revokeRole` additionally checks
the caller for `DEFAULT_ADMIN_ROLE`). -/
def revokeContractRole (s : TimelockState) (caller : Addr) (role : Role)
    (account : Addr) : Except TimelockError (TimelockState × List Event) :=
  if hasRole s .ADMIN caller = false then .error (.MissingRole caller .ADMIN)
  else if account = 0 then .error (.ZeroAddress "account")
  else if role = .ADMIN ∧
      ¬ (1 < getRoleMemberCount s .ADMIN ∨ account ≠ caller) then
    .error (.NotAuthorized caller (some role))
  else if role = .GOVERNANCE ∧ getRoleMemberCount s .GOVERNANCE ≤ 1 then
    .error (.NotAuthorized caller (some role))
  else if (role = .PROPOSER ∨ role = .EXECUTOR) ∧ getRoleMemberCount s role ≤ 1 then
    .error (.NotAuthorized caller (some role))
  else
    -- For GOVERNANCE: find the first remaining member ≠ account to record
    -- in the GovernanceRoleTransferred event (address(0) if none found).
    let govEvents : List Event :=
      if role = .GOVERNANCE then
        let newGovernance :=
          ((s.roleMembers .GOVERNANCE).find? (fun m => m ≠ account)).getD 0
        [.GovernanceRoleTransferred account newGovernance]
      else []
    match revokeRole s caller role account with
    | .error e => .error e
    | .ok s1 => .ok (s1, govEvents ++ [.RoleRevoked role account])

/-- `grantContractRole(role, account)` (`onlyRole(ADMIN_ROLE)`). -/
def grantContractRole (s : TimelockState) (caller : Addr) (role : Role)
    (account : Addr) : Except TimelockError (TimelockState × List Event) :=
  if hasRole s .ADMIN caller = false then .error (.MissingRole caller .ADMIN)
  else if account = 0 then .error (.ZeroAddress "account")
  else
    match grantRole s caller role account with
    | .error e => .error e
    | .ok s1 =>
        .ok (s1,
          [.RoleGranted role account] ++
            (if role = .GOVERNANCE then [.GovernanceRoleChanged account true] else []))

/-- `_queueTransaction(target, value, data, delay, level)` (internal). -/
def queueTransactionInternal (s : TimelockState) (now : Nat) (caller : Addr)
    (target : Addr) (value : Nat) (data : Bytes) (delay : Nat)
    (level : ThreatLevel) : Except TimelockError CallResult :=
  if target = 0 then .error (.ZeroAddress "target")
  else if delay < s.minDelay then .error (.DelayTooShort delay s.minDelay)
  else if s.maxDelay < delay then .error (.DelayTooLong delay s.maxDelay)
  else
    let txHash := txHashOf target value data (now + delay)
    let eta := now + delay
    if s.queuedTransactions txHash then .error (.TxAlreadyQueued txHash)
    else
      let s1 := { s with
        timelockTransactions := upd s.timelockTransactions txHash
          { target := target, value := value, data := data, eta := eta,
            executed := false, canceled := false }
        queuedTransactions := upd s.queuedTransactions txHash true }
      .ok (s1,
        [.TransactionQueued txHash target value data eta level,
         .TransactionSubmitted txHash caller],
        txHash.data)

/-- `queueTransactionWithThreatLevel(target, value, data)` (`whenNotPaused`;
Proposer role or token-balance authorization). -/
def queueTransactionWithThreatLevel (s : TimelockState) (now : Nat)
    (caller : Addr) (balanceOf : Addr → Option Nat) (target : Addr)
    (value : Nat) (data : Bytes) : Except TimelockError CallResult :=
  if s.paused then .error .EnforcedPause
  else if isAuthorizedByTokens s balanceOf caller = false ∧
      hasRole s .PROPOSER caller = false then
    .error (.NotAuthorized caller (some .PROPOSER))
  else
    let level := getThreatLevel s target data
    let delay := getDelayForThreatLevel s level
    queueTransactionInternal s now caller target value data delay level

/-- `queueTransaction(target, value, data, delay)` (`whenNotPaused`;
Proposer role only — token holders cannot pick a custom delay). -/
def queueTransaction (s : TimelockState) (now : Nat) (caller : Addr)
    (target : Addr) (value : Nat) (data : Bytes) (delay : Nat) :
    Except TimelockError CallResult :=
  if s.paused then .error .EnforcedPause
  else if target = 0 then .error (.ZeroAddress "target")
  else if delay < s.minDelay then .error (.DelayTooShort delay s.minDelay)
  else if s.maxDelay < delay then .error (.DelayTooLong delay s.maxDelay)
  else if hasRole s .PROPOSER caller = false then
    .error (.NotAuthorized caller (some .PROPOSER))
  else
    let level := getThreatLevel s target data
    queueTransactionInternal s now caller target value data delay level

/-- `executeTransaction(txHash)` (`whenNotPaused nonReentrant`; Executor
role or token-balance authorization).  On external-call failure the source
marks the transaction failed and then `revert CallFailed(...)`s: per EVM
semantics the revert rolls back every write of the call frame, so the
model returns the bare error. -/
def executeTransaction (s : TimelockState) (now : Nat) (caller : Addr)
    (txHash : TxKey) (balanceOf : Addr → Option Nat) (callSuccess : Bool)
    (callRet : Bytes) : Except TimelockError CallResult :=
  if s.paused then .error .EnforcedPause
  else if s.queuedTransactions txHash = false then .error (.TxNotQueued txHash)
  else
    let transaction := s.timelockTransactions txHash
    if transaction.executed then .error (.TxAlreadyExecuted txHash)
    else if transaction.canceled then .error (.AlreadyCanceled txHash)
    else if now < transaction.eta then .error (.TxNotReady txHash transaction.eta now)
    else if transaction.eta + s.gracePeriod < now then
      .error (.TxExpired txHash transaction.eta s.gracePeriod now)
    else if isAuthorizedByTokens s balanceOf caller = false ∧
        hasRole s .EXECUTOR caller = false then
      .error (.NotAuthorized caller (some .EXECUTOR))
    else
      let target := transaction.target
      let value := transaction.value
      let data := transaction.data
      -- Update state before external interaction
      let s1 := { s with
        timelockTransactions :=
          upd s.timelockTransactions txHash { transaction with executed := true } }
      if callSuccess = false then
        -- Source: `_markTransactionAsFailed(txHash); ...; revert CallFailed`.
        -- The revert rolls the entire call frame back (the source comments
        -- "this state will be rolled back"), so only the error escapes.
        .error (.CallFailed target data)
      else
        .ok (s1, [.TransactionExecuted txHash target value data], callRet)

/-- `markTransactionAsFailed(txHash)` (Admin or Governance; no pause
check in the source). -/
def markTransactionAsFailed (s : TimelockState) (caller : Addr) (txHash : TxKey) :
    Except TimelockError (TimelockState × List Event) :=
  if hasRole s .ADMIN caller = false ∧ hasRole s .GOVERNANCE caller = false then
    .error (.NotAuthorized caller none)
  else if s.queuedTransactions txHash = false then .error (.TxNotQueued txHash)
  else
    let transaction := s.timelockTransactions txHash
    if transaction.executed = false then .error (.RevertMsg "Transaction not executed yet")
    else if transaction.canceled then .error (.AlreadyCanceled txHash)
    else
      let s1 := { s with failedTransactions := upd s.failedTransactions txHash true }
      .ok (s1,
        [.TransactionExecutionFailed txHash transaction.target "Manually marked as failed"])

/-- `executeFailedTransaction(txHash)` (`whenNotPaused nonReentrant`; Admin
or Governance).  Clears the failed flag before the call; on repeat failure
re-marks and `revert CallFailed`s (rolled back, only the error escapes). -/
def executeFailedTransaction (s : TimelockState) (now : Nat) (caller : Addr)
    (txHash : TxKey) (callSuccess : Bool) (callRet : Bytes) :
    Except TimelockError CallResult :=
  if s.paused then .error .EnforcedPause
  else if s.queuedTransactions txHash = false then .error (.TxNotQueued txHash)
  else
    let transaction := s.timelockTransactions txHash
    if transaction.executed = false then .error (.TransactionNotPreviouslyFailed txHash)
    else if transaction.canceled then .error (.AlreadyCanceled txHash)
    else if s.failedTransactions txHash = false then
      .error (.TransactionNotPreviouslyFailed txHash)
    else if transaction.eta + s.gracePeriod < now then
      .error (.TxExpired txHash transaction.eta s.gracePeriod now)
    else if hasRole s .ADMIN caller = false ∧ hasRole s .GOVERNANCE caller = false then
      .error (.NotAuthorized caller none)
    else
      let target := transaction.target
      let value := transaction.value
      let data := transaction.data
      -- Clear the failed status BEFORE execution
      let s1 := { s with failedTransactions := upd s.failedTransactions txHash false }
      if callSuccess = false then
        -- Re-mark as failed, emit, then `revert CallFailed`: rolled back.
        .error (.CallFailed target data)
      else
        .ok (s1,
          [.FailedTransactionRetried txHash target value data,
           .TransactionExecuted txHash target value data],
          callRet)

/-- `cancelTransaction(txHash)` (`whenNotPaused`; Guardian, Canceller, or
Proposer).  Sets `canceled` and clears the `queuedTransactions` flag. -/
def cancelTransaction (s : TimelockState) (caller : Addr) (txHash : TxKey) :
    Except TimelockError (TimelockState × List Event) :=
  if s.paused then .error .EnforcedPause
  else if s.queuedTransactions txHash = false then .error (.TxNotQueued txHash)
  else
    let transaction := s.timelockTransactions txHash
    if transaction.executed then .error (.TxAlreadyExecuted txHash)
    else if transaction.canceled then .error (.AlreadyCanceled txHash)
    else if hasRole s .GUARDIAN caller = false ∧ hasRole s .CANCELLER caller = false ∧
        hasRole s .PROPOSER caller = false then
      .error (.NotAuthorized caller none)
    else
      let s1 := { s with
        timelockTransactions :=
          upd s.timelockTransactions txHash { transaction with canceled := true }
        queuedTransactions := upd s.queuedTransactions txHash false }
      .ok (s1, [.TransactionCanceled txHash])

/-- `updateDelays(newMinDelay, newMaxDelay, newGracePeriod)` (Admin,
Governance, or the contract itself). -/
def updateDelays (s : TimelockState) (caller : Addr)
    (newMinDelay newMaxDelay newGracePeriod : Nat) :
    Except TimelockError (TimelockState × List Event) :=
  if hasRole s .ADMIN caller = false ∧ hasRole s .GOVERNANCE caller = false ∧
      caller ≠ s.selfAddress then
    .error (.NotAuthorized caller none)
  else if newMinDelay = 0 then .error .ZeroDelay
  else if newMaxDelay < newMinDelay then .error .InvalidParams
  else if newGracePeriod = 0 then .error .InvalidParams
  else
    .ok ({ s with
            minDelay := newMinDelay
            maxDelay := newMaxDelay
            gracePeriod := newGracePeriod },
      [.DelaysUpdated newMinDelay newMaxDelay newGracePeriod])

/-- `updateThreatLevelDelays(newLowDelay, newMediumDelay, newHighDelay,
newCriticalDelay)` (Admin, Governance, or the contract itself). -/
def updateThreatLevelDelays (s : TimelockState) (caller : Addr)
    (newLowDelay newMediumDelay newHighDelay newCriticalDelay : Nat) :
    Except TimelockError (TimelockState × List Event) :=
  if hasRole s .ADMIN caller = false ∧ hasRole s .GOVERNANCE caller = false ∧
      caller ≠ s.selfAddress then
    .error (.NotAuthorized caller none)
  else if newLowDelay < s.minDelay then .error (.DelayTooShort newLowDelay s.minDelay)
  else if newMediumDelay < newLowDelay then .error .DelayHierarchyViolation
  else if newHighDelay < newMediumDelay then .error .DelayHierarchyViolation
  else if newCriticalDelay < newHighDelay then .error .DelayHierarchyViolation
  else if s.maxDelay < newCriticalDelay then
    .error (.DelayTooLong newCriticalDelay s.maxDelay)
  else
    .ok ({ s with
            lowThreatDelay := newLowDelay
            mediumThreatDelay := newMediumDelay
            highThreatDelay := newHighDelay
            criticalThreatDelay := newCriticalDelay },
      [.ThreatLevelDelaysUpdated newLowDelay newMediumDelay newHighDelay newCriticalDelay])

/-- `setFunctionThreatLevel(selector, level)` (`onlyRole(ADMIN_ROLE)`). -/
def setFunctionThreatLevel (s : TimelockState) (caller : Addr) (selector : Bytes)
    (level : ThreatLevel) : Except TimelockError (TimelockState × List Event) :=
  if hasRole s .ADMIN caller = false then .error (.MissingRole caller .ADMIN)
  else
    .ok ({ s with functionThreatLevels := upd s.functionThreatLevels selector level },
      [.FunctionThreatLevelSet selector level])

/-- The loop body of the batch threat-level setters: a sequence of mapping
writes. -/
def setThreatLevels {κ : Type} [DecidableEq κ] (f : κ → ThreatLevel) :
    List (κ × ThreatLevel) → (κ → ThreatLevel)
  | [] => f
  | p :: rest => setThreatLevels (upd f p.1 p.2) rest

/-- `setBatchFunctionThreatLevels(selectors, levels)` (`onlyRole(ADMIN_ROLE)`;
rejects mismatched array lengths). -/
def setBatchFunctionThreatLevels (s : TimelockState) (caller : Addr)
    (selectors : List Bytes) (levels : List ThreatLevel) :
    Except TimelockError (TimelockState × List Event) :=
  if hasRole s .ADMIN caller = false then .error (.MissingRole caller .ADMIN)
  else if selectors.length ≠ levels.length then .error .InvalidParams
  else
    .ok ({ s with functionThreatLevels :=
            setThreatLevels s.functionThreatLevels (selectors.zip levels) },
      (selectors.zip levels).map (fun p => .FunctionThreatLevelSet p.1 p.2))

/-- `setAddressThreatLevel(target, level)` (`onlyRole(ADMIN_ROLE)`). -/
def setAddressThreatLevel (s : TimelockState) (caller : Addr) (target : Addr)
    (level : ThreatLevel) : Except TimelockError (TimelockState × List Event) :=
  if hasRole s .ADMIN caller = false then .error (.MissingRole caller .ADMIN)
  else
    .ok ({ s with addressThreatLevels := upd s.addressThreatLevels target level },
      [.AddressThreatLevelSet target level])

/-- `setBatchAddressThreatLevels(targets, levels)` (`onlyRole(ADMIN_ROLE)`). -/
def setBatchAddressThreatLevels (s : TimelockState) (caller : Addr)
    (targets : List Addr) (levels : List ThreatLevel) :
    Except TimelockError (TimelockState × List Event) :=
  if hasRole s .ADMIN caller = false then .error (.MissingRole caller .ADMIN)
  else if targets.length ≠ levels.length then .error .InvalidParams
  else
    .ok ({ s with addressThreatLevels :=
            setThreatLevels s.addressThreatLevels (targets.zip levels) },
      (targets.zip levels).map (fun p => .AddressThreatLevelSet p.1 p.2))

/-- `setPaused(isPaused)` (`onlyRole(GUARDIAN_ROLE)`; OpenZeppelin `_pause`
requires not-paused and `_unpause` requires paused). -/
def setPaused (s : TimelockState) (caller : Addr) (isPaused : Bool) :
    Except TimelockError (TimelockState × List Event) :=
  if hasRole s .GUARDIAN caller = false then .error (.MissingRole caller .GUARDIAN)
  else if isPaused then
    if s.paused then .error .EnforcedPause
    else .ok ({ s with paused := true }, [.ContractPaused caller])
  else
    if s.paused = false then .error .ExpectedPause
    else .ok ({ s with paused := false }, [.ContractUnpaused caller])

/-- `wasTransactionFailed(txHash)` (view). -/
def wasTransactionFailed (s : TimelockState) (txHash : TxKey) : Bool :=
  s.failedTransactions txHash

/-- One external call to the contract, packaging the operation together with
its call environment (`block.timestamp`, `msg.sender`, oracles, and the
outcome of the inner external call where one is made). -/
inductive Op where
  | setJustToken (caller tokenAddress : Addr)
  | executeExpiredTransaction (now : Nat) (caller : Addr) (txHash : TxKey)
      (callSuccess : Bool) (callRet : Bytes)
  | updateExecutorTokenThreshold (caller : Addr) (newThreshold : Nat)
  | revokeContractRole (caller : Addr) (role : Role) (account : Addr)
  | grantContractRole (caller : Addr) (role : Role) (account : Addr)
  | queueTransactionWithThreatLevel (now : Nat) (caller : Addr)
      (balanceOf : Addr → Option Nat) (target : Addr) (value : Nat) (data : Bytes)
  | queueTransaction (now : Nat) (caller : Addr) (target : Addr) (value : Nat)
      (data : Bytes) (delay : Nat)
  | executeTransaction (now : Nat) (caller : Addr) (txHash : TxKey)
      (balanceOf : Addr → Option Nat) (callSuccess : Bool) (callRet : Bytes)
  | markTransactionAsFailed (caller : Addr) (txHash : TxKey)
  | executeFailedTransaction (now : Nat) (caller : Addr) (txHash : TxKey)
      (callSuccess : Bool) (callRet : Bytes)
  | cancelTransaction (caller : Addr) (txHash : TxKey)
  | updateDelays (caller : Addr) (newMinDelay newMaxDelay newGracePeriod : Nat)
  | updateThreatLevelDelays (caller : Addr)
      (newLowDelay newMediumDelay newHighDelay newCriticalDelay : Nat)
  | setFunctionThreatLevel (caller : Addr) (selector : Bytes) (level : ThreatLevel)
  | setBatchFunctionThreatLevels (caller : Addr) (selectors : List Bytes)
      (levels : List ThreatLevel)
  | setAddressThreatLevel (caller : Addr) (target : Addr) (level : ThreatLevel)
  | setBatchAddressThreatLevels (caller : Addr) (targets : List Addr)
      (levels : List ThreatLevel)
  | setPaused (caller : Addr) (isPaused : Bool)

/-- Run one external call against the state, keeping only the post-state
(events and return data are dropped; a revert leaves the state to the
caller unchanged, so only the error is reported). -/
def applyOp (s : TimelockState) : Op → Except TimelockError TimelockState
  | .setJustToken c t => (setJustToken s c t).map Prod.fst
  | .executeExpiredTransaction now c h cs cr =>
      (executeExpiredTransaction s now c h cs cr).map Prod.fst
  | .updateExecutorTokenThreshold c t => (updateExecutorTokenThreshold s c t).map Prod.fst
  | .revokeContractRole c r a => (revokeContractRole s c r a).map Prod.fst
  | .grantContractRole c r a => (grantContractRole s c r a).map Prod.fst
  | .queueTransactionWithThreatLevel now c b t v d =>
      (queueTransactionWithThreatLevel s now c b t v d).map Prod.fst
  | .queueTransaction now c t v d delay =>
      (queueTransaction s now c t v d delay).map Prod.fst
  | .executeTransaction now c h b cs cr =>
      (executeTransaction s now c h b cs cr).map Prod.fst
  | .markTransactionAsFailed c h => (markTransactionAsFailed s c h).map Prod.fst
  | .executeFailedTransaction now c h cs cr =>
      (executeFailedTransaction s now c h cs cr).map Prod.fst
  | .cancelTransaction c h => (cancelTransaction s c h).map Prod.fst
  | .updateDelays c a b g => (updateDelays s c a b g).map Prod.fst
  | .updateThreatLevelDelays c a b cc d =>
      (updateThreatLevelDelays s c a b cc d).map Prod.fst
  | .setFunctionThreatLevel c sel l => (setFunctionThreatLevel s c sel l).map Prod.fst
  | .setBatchFunctionThreatLevels c sels ls =>
      (setBatchFunctionThreatLevels s c sels ls).map Prod.fst
  | .setAddressThreatLevel c t l => (setAddressThreatLevel s c t l).map Prod.fst
  | .setBatchAddressThreatLevels c ts ls =>
      (setBatchAddressThreatLevels s c ts ls).map Prod.fst
  | .setPaused c p => (setPaused s c p).map Prod.fst

/-- The states the contract can be in: an initialized state, or the result
of any successful external call on a reachable state (a reverted call
leaves the state unchanged, so it does not move between states). -/
inductive Reachable : TimelockState → Prop
  | init (initialMinDelay : Nat) (proposers executors : List Addr)
      (admin selfAddress : Addr) (s : TimelockState) :
      initTimelock initialMinDelay proposers executors admin selfAddress = .ok s →
      Reachable s
  | step (s s' : TimelockState) (o : Op) :
      Reachable s → applyOp s o = .ok s' → Reachable s'

/-- The state the caller of an external function observes after the call:
the returned post-state on success, the unchanged pre-state on a revert. -/
def postState {α : Type} (s : TimelockState)
    (r : Except TimelockError (TimelockState × α)) : TimelockState :=
  match r with
  | .ok p => p.1
  | .error _ => s

/-- Is this error one of the two time-window rejections of
`executeTransaction` (`TxNotReady` / `TxExpired`)? -/
def isTimeRejection : TimelockError → Bool
  | .TxNotReady _ _ _ => true
  | .TxExpired _ _ _ _ => true
  | _ => false

/-- Is this error the expiry-precondition rejection of
`executeExpiredTransaction` (`TransactionNotExpired`)? -/
def isNotExpiredRejection : TimelockError → Bool
  | .TransactionNotExpired _ _ _ _ => true
  | _ => false

/-- Run one external call, a revert leaving the state unchanged. -/
def runOp (s : TimelockState) (o : Op) : TimelockState :=
  match applyOp s o with
  | .ok s' => s'
  | .error _ => s

/-- Run a sequence of external calls. -/
def runOps (s : TimelockState) : List Op → TimelockState
  | [] => s
  | o :: rest => runOps (runOp s o) rest

/-- Does this operation, run against state `s`, request to queue the
transaction id `k` (i.e. is it one of the two queue entry points whose
computed content hash is `k`)? -/
def opQueuesId (s : TimelockState) (k : TxKey) : Op → Prop
  | .queueTransaction now _ target value data delay =>
      txHashOf target value data (now + delay) = k
  | .queueTransactionWithThreatLevel now _ _ target value data =>
      txHashOf target value data
        (now + getDelayForThreatLevel s (getThreatLevel s target data)) = k
  | _ => False

/-- No operation of the sequence, run in its turn, requests to queue id `k`. -/
def NoRequeue (k : TxKey) : TimelockState → List Op → Prop
  | _, [] => True
  | s, o :: rest => ¬ opQueuesId s k o ∧ NoRequeue k (runOp s o) rest

/-- The tier-delay hierarchy `low ≤ medium ≤ high ≤ critical`. -/
def TierMonotone (s : TimelockState) : Prop :=
  s.lowThreatDelay ≤ s.mediumThreatDelay ∧
  s.mediumThreatDelay ≤ s.highThreatDelay ∧
  s.highThreatDelay ≤ s.criticalThreatDelay

/-- Fallback state (never reached by the witnesses; all fields zeroed). -/
def emptyState : TimelockState where
  minDelay := 0
  maxDelay := 0
  gracePeriod := 0
  minExecutorTokenThreshold := 0
  lowThreatDelay := 0
  mediumThreatDelay := 0
  highThreatDelay := 0
  criticalThreatDelay := 0
  functionThreatLevels := fun _ => ThreatLevel.LOW
  addressThreatLevels := fun _ => ThreatLevel.LOW
  justToken := 0
  timelockTransactions := fun _ => defaultTx
  queuedTransactions := fun _ => false
  failedTransactions := fun _ => false
  roleMembers := fun _ => []
  paused := false
  selfAddress := 0

/-- Extract the state of a successful `initTimelock`. -/
def postInit (r : Except TimelockError TimelockState) : TimelockState :=
  match r with
  | .ok s => s
  | .error _ => emptyState

/-- A concrete deployment used by the witnesses: `minDelay = 1`, account
`10` is admin / proposer / executor (and canceller, guardian, governance),
the contract lives at address `99`. -/
def wState : TimelockState := postInit (initTimelock 1 [10] [10] 10 99)

/-- A token oracle whose every query reverts (no token configured anyway). -/
def noBal : Addr → Option Nat := fun _ => none

/-- `wState` with the transaction `(target 5, value 0, data [], eta 100)`
queued (as obtained by queueing it at time `0` with delay `100`). -/
def wQueued : TimelockState :=
  postState wState (queueTransaction wState 0 10 5 0 [] 100)

/-- The content hash of the witness transaction. -/
def wKey : TxKey := txHashOf 5 0 [] 100

/-! ## Claims -/

/-- Spec-side classifier, following the spec's words (§4.1): return the
target's address-level override when non-default; else, when the payload
is at least 4 bytes long, the override of its leading 4-byte selector when
non-default; else Low. -/
def classifySpec (s : TimelockState) (target : Addr) (payload : Bytes) : ThreatLevel :=
  if s.addressThreatLevels target ≠ ThreatLevel.LOW then
    s.addressThreatLevels target
  else if 4 ≤ payload.length ∧ s.functionThreatLevels (payload.take 4) ≠ ThreatLevel.LOW then
    s.functionThreatLevels (payload.take 4)
  else ThreatLevel.LOW

/-- C5: for every (target, payload), `getThreatLevel` returns the target's
address-level override when non-default; otherwise, when the payload is at
least 4 bytes long, the override of its leading 4-byte selector when
non-default; otherwise Low — address overrides take precedence over
selector overrides. -/
theorem claim5_getThreatLevel (s : TimelockState) (target : Addr) (payload : Bytes) :
    getThreatLevel s target payload = classifySpec s target payload := by
  unfold getThreatLevel classifySpec
  split_ifs <;> simp_all

/-- C6 counterexample: with `minDelay = 1`, an admin call
`updateThreatLevelDelays(0, 0, 0, 0)` breaks the chain at the
`minDelay ≤ low` end link, but is rejected with `DelayTooShort`, not with
the `DelayHierarchyViolation` error — so "fails with a HierarchyViolation
at any link including the end links" is false at the end links. -/
theorem claim6_counterexample :
    updateThreatLevelDelays wState 10 0 0 0 0 = .error (.DelayTooShort 0 1) ∧
    updateThreatLevelDelays wState 10 0 0 0 0 ≠ .error .DelayHierarchyViolation := by
  refine ⟨rfl, ?_⟩
  rw [show updateThreatLevelDelays wState 10 0 0 0 0 = .error (.DelayTooShort 0 1) from rfl]
  simp

/-- C6 (amended): an authorized `updateThreatLevelDelays(low, medium, high,
critical)` call fails whenever the chain
`minDelay ≤ low ≤ medium ≤ high ≤ critical ≤ maxDelay` is broken at any
link — with `DelayTooShort` at the `minDelay ≤ low` link, with
`DelayHierarchyViolation` at the three interior links, and with
`DelayTooLong` at the `critical ≤ maxDelay` link — and otherwise replaces
all four tier delays atomically. -/
theorem claim6_amended (s : TimelockState) (caller : Addr)
    (low med high crit : Nat)
    (hauth : hasRole s .ADMIN caller = true ∨ hasRole s .GOVERNANCE caller = true ∨
      caller = s.selfAddress) :
    (low < s.minDelay →
      updateThreatLevelDelays s caller low med high crit =
        .error (.DelayTooShort low s.minDelay)) ∧
    (s.minDelay ≤ low → med < low →
      updateThreatLevelDelays s caller low med high crit =
        .error .DelayHierarchyViolation) ∧
    (s.minDelay ≤ low → low ≤ med → high < med →
      updateThreatLevelDelays s caller low med high crit =
        .error .DelayHierarchyViolation) ∧
    (s.minDelay ≤ low → low ≤ med → med ≤ high → crit < high →
      updateThreatLevelDelays s caller low med high crit =
        .error .DelayHierarchyViolation) ∧
    (s.minDelay ≤ low → low ≤ med → med ≤ high → high ≤ crit → s.maxDelay < crit →
      updateThreatLevelDelays s caller low med high crit =
        .error (.DelayTooLong crit s.maxDelay)) ∧
    (s.minDelay ≤ low → low ≤ med → med ≤ high → high ≤ crit → crit ≤ s.maxDelay →
      updateThreatLevelDelays s caller low med high crit =
        .ok ({ s with lowThreatDelay := low, mediumThreatDelay := med, highThreatDelay := high, criticalThreatDelay := crit },
          [.ThreatLevelDelaysUpdated low med high crit])) := by
  have hcond : ¬ (hasRole s .ADMIN caller = false ∧ hasRole s .GOVERNANCE caller = false ∧
      caller ≠ s.selfAddress) := by
    rcases hauth with h | h | h <;> simp [h]
  refine ⟨?_, ?_, ?_, ?_, ?_, ?_⟩
  · intro h1
    rw [updateThreatLevelDelays, if_neg hcond, if_pos h1]
  · intro h1 h2
    rw [updateThreatLevelDelays, if_neg hcond, if_neg (Nat.not_lt.mpr h1), if_pos h2]
  · intro h1 h2 h3
    rw [updateThreatLevelDelays, if_neg hcond, if_neg (Nat.not_lt.mpr h1),
      if_neg (Nat.not_lt.mpr h2), if_pos h3]
  · intro h1 h2 h3 h4
    rw [updateThreatLevelDelays, if_neg hcond, if_neg (Nat.not_lt.mpr h1),
      if_neg (Nat.not_lt.mpr h2), if_neg (Nat.not_lt.mpr h3), if_pos h4]
  · intro h1 h2 h3 h4 h5
    rw [updateThreatLevelDelays, if_neg hcond, if_neg (Nat.not_lt.mpr h1),
      if_neg (Nat.not_lt.mpr h2), if_neg (Nat.not_lt.mpr h3), if_neg (Nat.not_lt.mpr h4),
      if_pos h5]
  · intro h1 h2 h3 h4 h5
    rw [updateThreatLevelDelays, if_neg hcond, if_neg (Nat.not_lt.mpr h1),
      if_neg (Nat.not_lt.mpr h2), if_neg (Nat.not_lt.mpr h3), if_neg (Nat.not_lt.mpr h4),
      if_neg (Nat.not_lt.mpr h5)]

/-- Witness for C6 (amended): the admin updates the tiers to `1,2,3,4`
under `minDelay = 1`, `maxDelay = 2592000`, and all four are replaced. -/
theorem claim6_amended_witness :
    updateThreatLevelDelays wState 10 1 2 3 4 =
      .ok ({ wState with lowThreatDelay := 1, mediumThreatDelay := 2, highThreatDelay := 3, criticalThreatDelay := 4 },
        [.ThreatLevelDelaysUpdated 1 2 3 4]) :=
  (claim6_amended wState 10 1 2 3 4 (Or.inl (by decide))).2.2.2.2.2
    (by decide) (by decide) (by decide) (by decide) (by decide)

/-- C2: on a queued, not-yet-executed, not-canceled transaction (whose
failed flag is clear, as it always is before first execution),
`executeExpiredTransaction` rejects every call at `now ≤ eta + gracePeriod`
as not expired; past that instant it requires Admin or Governance
authorization only; and with that authorization it always returns normally,
regardless of the inner call's outcome, with the failed flag set afterwards
exactly when the inner call failed. -/
theorem claim2_executeExpired (s : TimelockState) (txHash : TxKey) (now : Nat)
    (caller : Addr) (callSuccess : Bool) (callRet : Bytes)
    (hp : s.paused = false)
    (hq : s.queuedTransactions txHash = true)
    (hx : (s.timelockTransactions txHash).executed = false)
    (hc : (s.timelockTransactions txHash).canceled = false)
    (hf : s.failedTransactions txHash = false) :
    (now ≤ (s.timelockTransactions txHash).eta + s.gracePeriod →
      executeExpiredTransaction s now caller txHash callSuccess callRet =
        .error (.TransactionNotExpired txHash (s.timelockTransactions txHash).eta
          s.gracePeriod now)) ∧
    ((s.timelockTransactions txHash).eta + s.gracePeriod < now →
      hasRole s .ADMIN caller = false → hasRole s .GOVERNANCE caller = false →
      executeExpiredTransaction s now caller txHash callSuccess callRet =
        .error (.NotAuthorized caller none)) ∧
    ((s.timelockTransactions txHash).eta + s.gracePeriod < now →
      (hasRole s .ADMIN caller = true ∨ hasRole s .GOVERNANCE caller = true) →
      (executeExpiredTransaction s now caller txHash callSuccess callRet).isOk = true ∧
      ((postState s (executeExpiredTransaction s now caller txHash callSuccess
          callRet)).timelockTransactions txHash).executed = true ∧
      (postState s (executeExpiredTransaction s now caller txHash callSuccess
          callRet)).failedTransactions txHash = !callSuccess) := by
  refine ⟨?_, ?_, ?_⟩
  · intro h1
    simp [executeExpiredTransaction, hp, hq, hx, hc, h1]
  · intro h1 ha hg
    simp [executeExpiredTransaction, hp, hq, hx, hc, Nat.not_le.mpr h1, ha, hg]
  · intro h1 hauth
    have hcond : ¬ (hasRole s .ADMIN caller = false ∧ hasRole s .GOVERNANCE caller = false) := by
      rcases hauth with h | h <;> simp [h]
    cases callSuccess with
    | false =>
        refine ⟨?_, ?_, ?_⟩ <;>
          simp [executeExpiredTransaction, hp, hq, hx, hc, Nat.not_le.mpr h1, hcond,
            postState, Except.isOk, Except.toBool]
    | true =>
        refine ⟨?_, ?_, ?_⟩ <;>
          simp [executeExpiredTransaction, hp, hq, hx, hc, Nat.not_le.mpr h1, hcond,
            postState, Except.isOk, Except.toBool, hf]

/-- Witness for C2: in the concrete deployment, past the grace window the
admin's `executeExpiredTransaction` with a failing inner call returns
normally, marks the record executed, and sets the failed flag. -/
theorem claim2_executeExpired_witness :
    (executeExpiredTransaction wQueued 1209701 10 wKey false []).isOk = true ∧
    ((postState wQueued (executeExpiredTransaction wQueued 1209701 10 wKey false
        [])).timelockTransactions wKey).executed = true ∧
    (postState wQueued (executeExpiredTransaction wQueued 1209701 10 wKey false
        [])).failedTransactions wKey = !false :=
  (claim2_executeExpired wQueued wKey 1209701 10 false []
    (by decide) (by decide) (by decide) (by decide) (by decide)).2.2
    (by decide) (Or.inl (by decide))

/-- C3: on a queued, not-yet-executed, not-canceled transaction,
`executeTransaction` strictly before `eta` fails `TxNotReady`; at exactly
`now = eta` it is never rejected by a time check (boundary inclusive);
strictly after `eta + gracePeriod` it fails `TxExpired`; and at every such
instant `executeExpiredTransaction` is never rejected as not expired. -/
theorem claim3_executionWindow (s : TimelockState) (txHash : TxKey) (now : Nat)
    (caller : Addr) (balanceOf : Addr → Option Nat) (callSuccess : Bool) (callRet : Bytes)
    (hp : s.paused = false)
    (hq : s.queuedTransactions txHash = true)
    (hx : (s.timelockTransactions txHash).executed = false)
    (hc : (s.timelockTransactions txHash).canceled = false) :
    (now < (s.timelockTransactions txHash).eta →
      executeTransaction s now caller txHash balanceOf callSuccess callRet =
        .error (.TxNotReady txHash (s.timelockTransactions txHash).eta now)) ∧
    (∀ e, executeTransaction s (s.timelockTransactions txHash).eta caller txHash
        balanceOf callSuccess callRet = .error e → isTimeRejection e = false) ∧
    ((s.timelockTransactions txHash).eta + s.gracePeriod < now →
      executeTransaction s now caller txHash balanceOf callSuccess callRet =
        .error (.TxExpired txHash (s.timelockTransactions txHash).eta s.gracePeriod now)) ∧
    ((s.timelockTransactions txHash).eta + s.gracePeriod < now →
      ∀ e, executeExpiredTransaction s now caller txHash callSuccess callRet = .error e →
        isNotExpiredRejection e = false) := by
  refine ⟨?_, ?_, ?_, ?_⟩
  · intro h1
    simp [executeTransaction, hp, hq, hx, hc, h1]
  · intro e he
    have h1 : ¬ ((s.timelockTransactions txHash).eta < (s.timelockTransactions txHash).eta) :=
      Nat.lt_irrefl _
    have h2 : ¬ ((s.timelockTransactions txHash).eta + s.gracePeriod <
        (s.timelockTransactions txHash).eta) := by omega
    simp only [executeTransaction, hp, hq, hx, hc] at he
    simp only [Bool.false_eq_true, if_false, if_neg h1, if_neg h2] at he
    repeat' split at he
    all_goals first
      | exact Except.noConfusion he
      | (injection he with h3; subst h3; rfl)
  · intro h1
    have h2 : ¬ (now < (s.timelockTransactions txHash).eta) := by omega
    simp [executeTransaction, hp, hq, hx, hc, h1, h2]
  · intro h1 e he
    simp only [executeExpiredTransaction, hp, hq, hx, hc] at he
    simp only [Bool.false_eq_true, if_false, if_neg (Nat.not_le.mpr h1)] at he
    repeat' split at he
    all_goals first
      | exact Except.noConfusion he
      | (injection he with h3; subst h3; rfl)

/-- Witness for C3: at `now = 50`, before the witness transaction's
`eta = 100`, execution is rejected as `TxNotReady`. -/
theorem claim3_executionWindow_witness :
    executeTransaction wQueued 50 10 wKey noBal true [] =
      .error (.TxNotReady wKey 100 50) :=
  (claim3_executionWindow wQueued wKey 50 10 noBal true []
    (by decide) (by decide) (by decide) (by decide)).1 (by decide)

/-- C1 counterexample: on the queued witness transaction (target `5`,
eta `100`), an in-window `executeTransaction` whose external call fails
does surface a `CallFailed` error, but — the revert rolling the call frame
back — the resulting (caller-observed) state still has `executed = false`
and no failed flag, and `executeFailedTransaction` rejects the record as
not previously failed: the claimed `executed=true, failed=true` post-state
and the `executeFailedTransaction` retry path are false. -/
theorem claim1_counterexample :
    executeTransaction wQueued 100 10 wKey noBal false [] = .error (.CallFailed 5 []) ∧
    ((postState wQueued (executeTransaction wQueued 100 10 wKey noBal false
        [])).timelockTransactions wKey).executed = false ∧
    (postState wQueued (executeTransaction wQueued 100 10 wKey noBal false
        [])).failedTransactions wKey = false ∧
    executeFailedTransaction wQueued 100 10 wKey true [] =
      .error (.TransactionNotPreviouslyFailed wKey) := by
  refine ⟨rfl, by decide, by decide, rfl⟩

/-- C1 (amended): if the external call made by `executeTransaction` on a
queued, eligible transaction fails, the failure is surfaced to the caller
as a `CallFailed` error, and — the revert rolling back the call frame's
writes — the record is left exactly as it was: still queued, not executed,
not failed.  It is therefore not retryable via `executeFailedTransaction`
(which rejects it as not previously failed), but remains executable by
calling `executeTransaction` again within the window. -/
theorem claim1_amended (s : TimelockState) (txHash : TxKey) (now : Nat)
    (caller : Addr) (balanceOf : Addr → Option Nat) (callRet : Bytes)
    (hp : s.paused = false)
    (hq : s.queuedTransactions txHash = true)
    (hx : (s.timelockTransactions txHash).executed = false)
    (hc : (s.timelockTransactions txHash).canceled = false)
    (h1 : (s.timelockTransactions txHash).eta ≤ now)
    (h2 : now ≤ (s.timelockTransactions txHash).eta + s.gracePeriod)
    (hauth : isAuthorizedByTokens s balanceOf caller = true ∨
      hasRole s .EXECUTOR caller = true) :
    executeTransaction s now caller txHash balanceOf false callRet =
      .error (.CallFailed (s.timelockTransactions txHash).target
        (s.timelockTransactions txHash).data) ∧
    (∀ now2 caller2 callSuccess2 callRet2,
      executeFailedTransaction s now2 caller2 txHash callSuccess2 callRet2 =
        .error (.TransactionNotPreviouslyFailed txHash)) ∧
    (executeTransaction s now caller txHash balanceOf true callRet).isOk = true := by
  have hcond : ¬ (isAuthorizedByTokens s balanceOf caller = false ∧
      hasRole s .EXECUTOR caller = false) := by
    rcases hauth with h | h <;> simp [h]
  refine ⟨?_, ?_, ?_⟩
  · simp [executeTransaction, hp, hq, hx, hc, Nat.not_lt.mpr h1, Nat.not_lt.mpr h2, hcond]
  · intro now2 caller2 callSuccess2 callRet2
    simp [executeFailedTransaction, hp, hq, hx]
  · simp [executeTransaction, hp, hq, hx, hc, Nat.not_lt.mpr h1, Nat.not_lt.mpr h2, hcond,
      Except.isOk, Except.toBool]

/-- Witness for C1 (amended): the concrete failing execution surfaces
`CallFailed` on target `5`. -/
theorem claim1_amended_witness :
    executeTransaction wQueued 100 10 wKey noBal false [] = .error (.CallFailed 5 []) :=
  (claim1_amended wQueued wKey 100 10 noBal []
    (by decide) (by decide) (by decide) (by decide) (by decide) (by decide)
    (Or.inr (by decide))).1

/-- C4: the transaction id is the content hash of
`(target, value, payload, eta)` with `eta = now + delay`; queuing while an
entry with the same id is still queued fails `TxAlreadyQueued`; the id
determines and is determined by the four fields (so changing any one —
including only the delay, which changes `eta` — changes the id); and two
queue requests whose ids differ both enter the queue and coexist. -/
theorem claim4_queueIdentity (s : TimelockState) (now now2 : Nat)
    (caller caller2 : Addr) (target target2 : Addr) (value value2 : Nat)
    (data data2 : Bytes) (delay delay2 : Nat) (level level2 : ThreatLevel)
    (ht : target ≠ 0) (hd1 : s.minDelay ≤ delay) (hd2 : delay ≤ s.maxDelay)
    (ht2 : target2 ≠ 0) (hd3 : s.minDelay ≤ delay2) (hd4 : delay2 ≤ s.maxDelay) :
    (s.queuedTransactions (txHashOf target value data (now + delay)) = true →
      queueTransactionInternal s now caller target value data delay level =
        .error (.TxAlreadyQueued (txHashOf target value data (now + delay)))) ∧
    (∀ t v d e t2 v2 d2 e2, txHashOf t v d e = txHashOf t2 v2 d2 e2 ↔
      (t = t2 ∧ v = v2 ∧ d = d2 ∧ e = e2)) ∧
    (s.queuedTransactions (txHashOf target value data (now + delay)) = false →
      s.queuedTransactions (txHashOf target2 value2 data2 (now2 + delay2)) = false →
      txHashOf target value data (now + delay) ≠
        txHashOf target2 value2 data2 (now2 + delay2) →
      (queueTransactionInternal s now caller target value data delay level).isOk = true ∧
      (queueTransactionInternal
        (postState s (queueTransactionInternal s now caller target value data delay level))
        now2 caller2 target2 value2 data2 delay2 level2).isOk = true ∧
      (postState
        (postState s (queueTransactionInternal s now caller target value data delay level))
        (queueTransactionInternal
          (postState s (queueTransactionInternal s now caller target value data delay level))
          now2 caller2 target2 value2 data2 delay2 level2)).queuedTransactions
        (txHashOf target value data (now + delay)) = true ∧
      (postState
        (postState s (queueTransactionInternal s now caller target value data delay level))
        (queueTransactionInternal
          (postState s (queueTransactionInternal s now caller target value data delay level))
          now2 caller2 target2 value2 data2 delay2 level2)).queuedTransactions
        (txHashOf target2 value2 data2 (now2 + delay2)) = true) := by
  refine ⟨?_, ?_, ?_⟩
  · intro hq
    simp [queueTransactionInternal, ht, Nat.not_lt.mpr hd1, Nat.not_lt.mpr hd2, hq]
  · intro t v d e t2 v2 d2 e2
    simp [txHashOf, TxKey.mk.injEq]
  · intro hq1 hq2 hne
    have heq1 : queueTransactionInternal s now caller target value data delay level =
        .ok ({ s with
          timelockTransactions := upd s.timelockTransactions
            (txHashOf target value data (now + delay))
            { target := target, value := value, data := data, eta := now + delay,
              executed := false, canceled := false }
          queuedTransactions := upd s.queuedTransactions
            (txHashOf target value data (now + delay)) true },
          [.TransactionQueued (txHashOf target value data (now + delay)) target value data
            (now + delay) level,
           .TransactionSubmitted (txHashOf target value data (now + delay)) caller],
          (txHashOf target value data (now + delay)).data) := by
      simp [queueTransactionInternal, ht, Nat.not_lt.mpr hd1, Nat.not_lt.mpr hd2, hq1]
    rw [heq1]
    simp only [postState]
    have hq2b : upd s.queuedTransactions (txHashOf target value data (now + delay)) true
        (txHashOf target2 value2 data2 (now2 + delay2)) = false := by
      rw [upd_other _ _ _ _ (Ne.symm hne)]
      exact hq2
    refine ⟨by simp [Except.isOk, Except.toBool], ?_, ?_, ?_⟩ <;>
      simp [queueTransactionInternal, ht2, Nat.not_lt.mpr hd3, Nat.not_lt.mpr hd4, hq2b, hq2,
        postState, Except.isOk, Except.toBool, upd, Ne.symm hne, hne]

/-- Witness for C4: queuing `(5, 0, [], delay 100)` and then
`(5, 0, [], delay 101)` at time `0` — identical except for the delay —
produces distinct ids and both entries coexist in the queue. -/
theorem claim4_queueIdentity_witness :
    (queueTransactionInternal wState 0 10 5 0 [] 100 .LOW).isOk = true ∧
    (queueTransactionInternal
      (postState wState (queueTransactionInternal wState 0 10 5 0 [] 100 .LOW))
      0 10 5 0 [] 101 .LOW).isOk = true ∧
    (postState
      (postState wState (queueTransactionInternal wState 0 10 5 0 [] 100 .LOW))
      (queueTransactionInternal
        (postState wState (queueTransactionInternal wState 0 10 5 0 [] 100 .LOW))
        0 10 5 0 [] 101 .LOW)).queuedTransactions (txHashOf 5 0 [] 100) = true ∧
    (postState
      (postState wState (queueTransactionInternal wState 0 10 5 0 [] 100 .LOW))
      (queueTransactionInternal
        (postState wState (queueTransactionInternal wState 0 10 5 0 [] 100 .LOW))
        0 10 5 0 [] 101 .LOW)).queuedTransactions (txHashOf 5 0 [] 101) = true :=
  (claim4_queueIdentity wState 0 0 10 10 5 5 0 0 [] [] 100 101 .LOW .LOW
    (by decide) (by decide) (by decide) (by decide) (by decide) (by decide)).2.2
    (by decide) (by decide) (by decide)

/-- Two members of a list of length at most one coincide. -/
theorem mem_eq_of_length_le_one {l : List Addr} {a b : Addr}
    (ha : a ∈ l) (hb : b ∈ l) (hl : l.length ≤ 1) : a = b := by
  match l with
  | [] => cases ha
  | [x] =>
      simp at ha hb
      exact ha.trans hb.symm
  | x :: y :: rest => simp at hl

/-- A duplicate-free list of length at least two has an element different
from any given value. -/
theorem exists_mem_ne_of_nodup {l : List Addr} (a : Addr)
    (hd : l.Nodup) (hl : 2 ≤ l.length) : ∃ b ∈ l, b ≠ a := by
  match l with
  | [] => simp at hl
  | [x] => simp at hl
  | x :: y :: rest =>
      by_cases hx : x = a
      · obtain ⟨hx1, _⟩ := List.nodup_cons.mp hd
        refine ⟨y, by simp, ?_⟩
        intro hya
        have hxy : x = y := hx.trans hya.symm
        rw [hxy] at hx1
        exact hx1 (List.mem_cons_self _ _)
      · exact ⟨x, by simp, hx⟩

/-- The two-governance-holder deployment used by the C8 witness: `wState`
with governance additionally granted to account `11`. -/
def wTwoGov : TimelockState :=
  postState wState (grantContractRole wState 10 .GOVERNANCE 11)

/-- C8: under an admin caller (who, as in the deployed configuration, also
holds the OpenZeppelin default-admin role governing `revokeRole`),
`revokeContractRole` rejects revoking the last remaining holder of the
Admin, Governance, Proposer, or Executor role; succeeds whenever the role
has at least two holders; and revoking a Governance holder with more than
one holder present emits a `GovernanceRoleTransferred` record naming a
remaining Governance holder. -/
theorem claim8_revokeGuards (s : TimelockState) (caller account : Addr) (role : Role)
    (hca : hasRole s .ADMIN caller = true)
    (hcd : hasRole s .DEFAULT_ADMIN caller = true)
    (hacc : account ≠ 0)
    (hrole : role = .ADMIN ∨ role = .GOVERNANCE ∨ role = .PROPOSER ∨ role = .EXECUTOR) :
    (getRoleMemberCount s role ≤ 1 → hasRole s role account = true →
      revokeContractRole s caller role account =
        .error (.NotAuthorized caller (some role))) ∧
    (2 ≤ getRoleMemberCount s role →
      (revokeContractRole s caller role account).isOk = true) ∧
    (role = .GOVERNANCE → 2 ≤ getRoleMemberCount s .GOVERNANCE →
      hasRole s .GOVERNANCE account = true → (s.roleMembers .GOVERNANCE).Nodup →
      ∃ s1 evs g, revokeContractRole s caller role account = .ok (s1, evs) ∧
        Event.GovernanceRoleTransferred account g ∈ evs ∧
        g ≠ account ∧ hasRole s .GOVERNANCE g = true) := by
  refine ⟨?_, ?_, ?_⟩
  · intro hcnt hmem
    rcases hrole with hr | hr | hr | hr <;> subst hr
    · have hcallmem : caller ∈ s.roleMembers .ADMIN := by
        unfold hasRole at hca
        exact List.elem_iff.mp hca
      have haccmem : account ∈ s.roleMembers .ADMIN := by
        unfold hasRole at hmem
        exact List.elem_iff.mp hmem
      have heq : account = caller :=
        mem_eq_of_length_le_one haccmem hcallmem hcnt
      have hlt : ¬ (1 < getRoleMemberCount s .ADMIN) := by
        unfold getRoleMemberCount at *
        omega
      have hacc2 : caller ≠ 0 := by
        rw [← heq]
        exact hacc
      simp [revokeContractRole, hca, hacc, hacc2, hlt, heq]
    · simp [revokeContractRole, hca, hacc, hcnt]
    · simp [revokeContractRole, hca, hacc, hcnt]
    · simp [revokeContractRole, hca, hacc, hcnt]
  · intro hcnt
    rcases hrole with hr | hr | hr | hr <;> subst hr <;>
      [ (have h1 : 1 < getRoleMemberCount s .ADMIN := by omega
         simp [revokeContractRole, hca, hacc, h1, revokeRole, hcd,
           Except.isOk, Except.toBool]);
        (have h1 : ¬ (getRoleMemberCount s .GOVERNANCE ≤ 1) := by omega
         simp [revokeContractRole, hca, hacc, h1, revokeRole, hcd,
           Except.isOk, Except.toBool]);
        (have h1 : ¬ (getRoleMemberCount s .PROPOSER ≤ 1) := by omega
         simp [revokeContractRole, hca, hacc, h1, revokeRole, hcd,
           Except.isOk, Except.toBool]);
        (have h1 : ¬ (getRoleMemberCount s .EXECUTOR ≤ 1) := by omega
         simp [revokeContractRole, hca, hacc, h1, revokeRole, hcd,
           Except.isOk, Except.toBool])]
  · intro hrg h2 hmem hnodup
    subst hrg
    have h2n : ¬ (getRoleMemberCount s .GOVERNANCE ≤ 1) := by omega
    have h2l : 2 ≤ (s.roleMembers .GOVERNANCE).length := h2
    obtain ⟨b, hbmem, hbne⟩ := exists_mem_ne_of_nodup account hnodup h2l
    cases hfind : (s.roleMembers .GOVERNANCE).find? (fun m => m ≠ account) with
    | none =>
        exfalso
        have := List.find?_eq_none.mp hfind b hbmem
        simp [hbne] at this
    | some g =>
        have hg1 : g ≠ account := by
          have := List.find?_some hfind
          simpa using this
        have hg2 : g ∈ s.roleMembers .GOVERNANCE := List.mem_of_find?_eq_some hfind
        simp only [ne_eq, decide_not] at hfind
        have heq : revokeContractRole s caller .GOVERNANCE account =
            .ok (revokeRoleInternal s .GOVERNANCE account,
              [.GovernanceRoleTransferred account g, .RoleRevoked .GOVERNANCE account]) := by
          simp [revokeContractRole, hca, hacc, h2n, revokeRole, hcd, hfind]
        refine ⟨_, _, g, heq, by simp, hg1, ?_⟩
        unfold hasRole
        exact List.elem_iff.mpr hg2

/-- Witness for C8: with governance held by accounts `10` and `11`,
the admin revokes governance from `10`; the call succeeds and names a
remaining holder (account `11`) in a `GovernanceRoleTransferred` record. -/
theorem claim8_revokeGuards_witness :
    ∃ s1 evs g, revokeContractRole wTwoGov 10 .GOVERNANCE 10 = .ok (s1, evs) ∧
      Event.GovernanceRoleTransferred 10 g ∈ evs ∧ g ≠ 10 ∧
      hasRole wTwoGov .GOVERNANCE g = true :=
  (claim8_revokeGuards wTwoGov 10 10 .GOVERNANCE (by decide) (by decide) (by decide)
    (Or.inr (Or.inl rfl))).2.2 rfl (by decide) (by decide) (by decide)

/-- C10: `markTransactionAsFailed` requires only `executed = true` and
`canceled = false` — nothing about the external call having actually
failed — so on any executed (even successfully executed) transaction an
Admin/Governance caller can mark it failed, and `executeFailedTransaction`
within the grace window then performs the external call a second time,
clearing the failed flag again on success. -/
theorem claim10_markFailedRetry (s : TimelockState) (txHash : TxKey) (now : Nat)
    (caller : Addr) (callRet : Bytes)
    (hp : s.paused = false)
    (hq : s.queuedTransactions txHash = true)
    (hx : (s.timelockTransactions txHash).executed = true)
    (hc : (s.timelockTransactions txHash).canceled = false)
    (hg : now ≤ (s.timelockTransactions txHash).eta + s.gracePeriod)
    (hauth : hasRole s .ADMIN caller = true ∨ hasRole s .GOVERNANCE caller = true) :
    (markTransactionAsFailed s caller txHash).isOk = true ∧
    (postState s (markTransactionAsFailed s caller txHash)).failedTransactions
      txHash = true ∧
    (executeFailedTransaction (postState s (markTransactionAsFailed s caller txHash))
      now caller txHash true callRet).isOk = true ∧
    (postState (postState s (markTransactionAsFailed s caller txHash))
      (executeFailedTransaction (postState s (markTransactionAsFailed s caller txHash))
        now caller txHash true callRet)).failedTransactions txHash = false := by
  have hcond : ¬ (hasRole s .ADMIN caller = false ∧
      hasRole s .GOVERNANCE caller = false) := by
    rcases hauth with h | h <;> simp [h]
  have heq1 : markTransactionAsFailed s caller txHash =
      .ok ({ s with failedTransactions := upd s.failedTransactions txHash true },
        [.TransactionExecutionFailed txHash (s.timelockTransactions txHash).target
          "Manually marked as failed"]) := by
    simp [markTransactionAsFailed, hcond, hq, hx, hc]
  rw [heq1]
  simp only [postState]
  have hcond2 : ¬ (caller ∉ s.roleMembers .ADMIN ∧ caller ∉ s.roleMembers .GOVERNANCE) := by
    rcases hauth with h | h <;> simp [hasRole] at h <;> simp [h]
  refine ⟨by simp [Except.isOk, Except.toBool], by simp, ?_, ?_⟩ <;>
    simp [executeFailedTransaction, hasRole, hp, hq, hx, hc, Nat.not_lt.mpr hg, hcond2, upd,
      postState, Except.isOk, Except.toBool]

/-- The witness transaction after a successful in-window execution. -/
def wExecuted : TimelockState :=
  postState wQueued (executeTransaction wQueued 100 10 wKey noBal true [])

/-- Witness for C10: the successfully executed witness transaction is
marked failed by the admin and then re-executed through
`executeFailedTransaction`. -/
theorem claim10_markFailedRetry_witness :
    (markTransactionAsFailed wExecuted 10 wKey).isOk = true ∧
    (postState wExecuted (markTransactionAsFailed wExecuted 10 wKey)).failedTransactions
      wKey = true ∧
    (executeFailedTransaction (postState wExecuted (markTransactionAsFailed wExecuted 10 wKey))
      200 10 wKey true []).isOk = true ∧
    (postState (postState wExecuted (markTransactionAsFailed wExecuted 10 wKey))
      (executeFailedTransaction
        (postState wExecuted (markTransactionAsFailed wExecuted 10 wKey))
        200 10 wKey true [])).failedTransactions wKey = false :=
  claim10_markFailedRetry wExecuted wKey 200 10 []
    (by decide) (by decide) (by decide) (by decide) (by decide) (Or.inl (by decide))

/-- `grantRoleInternal` touches only the member table, so it preserves the
tier-delay hierarchy. -/
theorem grantRoleInternal_tier (s : TimelockState) (role : Role) (a : Addr) :
    TierMonotone (grantRoleInternal s role a) ↔ TierMonotone s :=
  Iff.rfl

/-- `setupRoleAll` touches only the member table, so it preserves the
tier-delay hierarchy. -/
theorem setupRoleAll_tier (s : TimelockState) (role : Role) (l : List Addr) :
    TierMonotone (setupRoleAll s role l) ↔ TierMonotone s := by
  induction l generalizing s with
  | nil => exact Iff.rfl
  | cons a rest ih =>
      simp only [setupRoleAll]
      rw [ih]
      split
      · exact grantRoleInternal_tier s role a
      · exact Iff.rfl

/-- An initialized state satisfies the tier-delay hierarchy (the defaults
are 1, 3, 7, 14 days). -/
theorem initTimelock_tierMonotone {d : Nat} {ps es : List Addr} {a self : Addr}
    {s : TimelockState} (h : initTimelock d ps es a self = .ok s) :
    TierMonotone s := by
  simp only [initTimelock] at h
  repeat' split at h
  all_goals first
    | exact Except.noConfusion h
    | (injection h with h2
       subst h2
       rw [grantRoleInternal_tier, grantRoleInternal_tier, grantRoleInternal_tier,
         setupRoleAll_tier, setupRoleAll_tier, grantRoleInternal_tier,
         grantRoleInternal_tier, grantRoleInternal_tier]
       refine ⟨by norm_num, by norm_num, by norm_num⟩)

/-- Inversion for a mapped `Except` result. -/
theorem exceptMap_ok_inv {E α β : Type} {f : α → β} {x : Except E α} {y : β}
    (h : Except.map f x = .ok y) : ∃ a, x = .ok a ∧ y = f a := by
  cases x with
  | error e => simp [Except.map] at h
  | ok a =>
      refine ⟨a, rfl, ?_⟩
      simp [Except.map] at h
      exact h.symm

set_option maxHeartbeats 1000000 in
/-- Every successful external call preserves the tier-delay hierarchy:
only `updateThreatLevelDelays` writes the four tier delays, and its
validation enforces the chain. -/
theorem applyOp_preserves_tierMonotone {s s' : TimelockState} {o : Op}
    (h : applyOp s o = .ok s') (hm : TierMonotone s) : TierMonotone s' := by
  unfold TierMonotone at hm
  cases o with
  | setJustToken c t =>
      simp only [applyOp, setJustToken] at h
      obtain ⟨r, hop, hy⟩ := exceptMap_ok_inv h
      subst hy
      repeat' split at hop
      all_goals first
        | exact Except.noConfusion hop
        | (injection hop with h2; subst h2; refine ⟨?_, ?_, ?_⟩ <;> (try simp) <;> omega)
  | executeExpiredTransaction now c k cs cr =>
      simp only [applyOp, executeExpiredTransaction] at h
      obtain ⟨r, hop, hy⟩ := exceptMap_ok_inv h
      subst hy
      repeat' split at hop
      all_goals first
        | exact Except.noConfusion hop
        | (injection hop with h2; subst h2; refine ⟨?_, ?_, ?_⟩ <;> (try simp) <;> omega)
  | updateExecutorTokenThreshold c t =>
      simp only [applyOp, updateExecutorTokenThreshold] at h
      obtain ⟨r, hop, hy⟩ := exceptMap_ok_inv h
      subst hy
      repeat' split at hop
      all_goals first
        | exact Except.noConfusion hop
        | (injection hop with h2; subst h2; refine ⟨?_, ?_, ?_⟩ <;> (try simp) <;> omega)
  | revokeContractRole c rr a =>
      simp only [applyOp] at h
      obtain ⟨r, hop, hy⟩ := exceptMap_ok_inv h
      subst hy
      rw [revokeContractRole] at hop
      repeat' split at hop
      all_goals try exact Except.noConfusion hop
      all_goals (
        first
          | (rename_i x s1 heq
             simp only [revokeRole] at heq)
          | (rename_i x s1 heq cond
             simp only [revokeRole] at heq)
        split at heq
        · exact Except.noConfusion heq
        · injection heq with h3
          subst h3
          injection hop with h2
          subst h2
          refine ⟨?_, ?_, ?_⟩ <;> (try simp [revokeRoleInternal]) <;> omega)
  | grantContractRole c rr a =>
      simp only [applyOp] at h
      obtain ⟨r, hop, hy⟩ := exceptMap_ok_inv h
      subst hy
      rw [grantContractRole] at hop
      repeat' split at hop
      all_goals try exact Except.noConfusion hop
      all_goals (
        first
          | (rename_i x s1 heq
             simp only [grantRole] at heq)
          | (rename_i x s1 heq cond
             simp only [grantRole] at heq)
        split at heq
        · exact Except.noConfusion heq
        · injection heq with h3
          subst h3
          injection hop with h2
          subst h2
          refine ⟨?_, ?_, ?_⟩ <;> (try simp [grantRoleInternal]) <;> omega)
  | queueTransactionWithThreatLevel now c b t v d =>
      simp only [applyOp, queueTransactionWithThreatLevel, queueTransactionInternal] at h
      obtain ⟨r, hop, hy⟩ := exceptMap_ok_inv h
      subst hy
      repeat' split at hop
      all_goals first
        | exact Except.noConfusion hop
        | (injection hop with h2; subst h2; refine ⟨?_, ?_, ?_⟩ <;> (try simp) <;> omega)
  | queueTransaction now c t v d delay =>
      simp only [applyOp, queueTransaction, queueTransactionInternal] at h
      obtain ⟨r, hop, hy⟩ := exceptMap_ok_inv h
      subst hy
      repeat' split at hop
      all_goals first
        | exact Except.noConfusion hop
        | (injection hop with h2; subst h2; refine ⟨?_, ?_, ?_⟩ <;> (try simp) <;> omega)
  | executeTransaction now c k b cs cr =>
      simp only [applyOp, executeTransaction] at h
      obtain ⟨r, hop, hy⟩ := exceptMap_ok_inv h
      subst hy
      repeat' split at hop
      all_goals first
        | exact Except.noConfusion hop
        | (injection hop with h2; subst h2; refine ⟨?_, ?_, ?_⟩ <;> (try simp) <;> omega)
  | markTransactionAsFailed c k =>
      simp only [applyOp, markTransactionAsFailed] at h
      obtain ⟨r, hop, hy⟩ := exceptMap_ok_inv h
      subst hy
      repeat' split at hop
      all_goals first
        | exact Except.noConfusion hop
        | (injection hop with h2; subst h2; refine ⟨?_, ?_, ?_⟩ <;> (try simp) <;> omega)
  | executeFailedTransaction now c k cs cr =>
      simp only [applyOp, executeFailedTransaction] at h
      obtain ⟨r, hop, hy⟩ := exceptMap_ok_inv h
      subst hy
      repeat' split at hop
      all_goals first
        | exact Except.noConfusion hop
        | (injection hop with h2; subst h2; refine ⟨?_, ?_, ?_⟩ <;> (try simp) <;> omega)
  | cancelTransaction c k =>
      simp only [applyOp, cancelTransaction] at h
      obtain ⟨r, hop, hy⟩ := exceptMap_ok_inv h
      subst hy
      repeat' split at hop
      all_goals first
        | exact Except.noConfusion hop
        | (injection hop with h2; subst h2; refine ⟨?_, ?_, ?_⟩ <;> (try simp) <;> omega)
  | updateDelays c a b g =>
      simp only [applyOp, updateDelays] at h
      obtain ⟨r, hop, hy⟩ := exceptMap_ok_inv h
      subst hy
      repeat' split at hop
      all_goals first
        | exact Except.noConfusion hop
        | (injection hop with h2; subst h2; refine ⟨?_, ?_, ?_⟩ <;> (try simp) <;> omega)
  | updateThreatLevelDelays c a b cc d =>
      simp only [applyOp, updateThreatLevelDelays] at h
      obtain ⟨r, hop, hy⟩ := exceptMap_ok_inv h
      subst hy
      repeat' split at hop
      all_goals first
        | exact Except.noConfusion hop
        | (injection hop with h2; subst h2; refine ⟨?_, ?_, ?_⟩ <;> (try simp) <;> omega)
  | setFunctionThreatLevel c sel l =>
      simp only [applyOp, setFunctionThreatLevel] at h
      obtain ⟨r, hop, hy⟩ := exceptMap_ok_inv h
      subst hy
      repeat' split at hop
      all_goals first
        | exact Except.noConfusion hop
        | (injection hop with h2; subst h2; refine ⟨?_, ?_, ?_⟩ <;> (try simp) <;> omega)
  | setBatchFunctionThreatLevels c sels ls =>
      simp only [applyOp, setBatchFunctionThreatLevels] at h
      obtain ⟨r, hop, hy⟩ := exceptMap_ok_inv h
      subst hy
      repeat' split at hop
      all_goals first
        | exact Except.noConfusion hop
        | (injection hop with h2; subst h2; refine ⟨?_, ?_, ?_⟩ <;> (try simp) <;> omega)
  | setAddressThreatLevel c t l =>
      simp only [applyOp, setAddressThreatLevel] at h
      obtain ⟨r, hop, hy⟩ := exceptMap_ok_inv h
      subst hy
      repeat' split at hop
      all_goals first
        | exact Except.noConfusion hop
        | (injection hop with h2; subst h2; refine ⟨?_, ?_, ?_⟩ <;> (try simp) <;> omega)
  | setBatchAddressThreatLevels c ts ls =>
      simp only [applyOp, setBatchAddressThreatLevels] at h
      obtain ⟨r, hop, hy⟩ := exceptMap_ok_inv h
      subst hy
      repeat' split at hop
      all_goals first
        | exact Except.noConfusion hop
        | (injection hop with h2; subst h2; refine ⟨?_, ?_, ?_⟩ <;> (try simp) <;> omega)
  | setPaused c p =>
      simp only [applyOp, setPaused] at h
      obtain ⟨r, hop, hy⟩ := exceptMap_ok_inv h
      subst hy
      repeat' split at hop
      all_goals first
        | exact Except.noConfusion hop
        | (injection hop with h2; subst h2; refine ⟨?_, ?_, ?_⟩ <;> (try simp) <;> omega)

/-- Every reachable state satisfies the tier-delay hierarchy. -/
theorem reachable_tierMonotone {s : TimelockState} (h : Reachable s) :
    TierMonotone s := by
  induction h with
  | init d ps es a self s hinit => exact initTimelock_tierMonotone hinit
  | step s s' o hr happ ih => exact applyOp_preserves_tierMonotone happ ih

/-- C7: in every reachable configuration (the initialized defaults, or any
state reached by successful external calls), `getDelayForThreatLevel` is
monotone in the threat-level order Low < Medium < High < Critical; and a
rejected `updateThreatLevelDelays` call leaves all four tier delays
unchanged (the revert hands the caller back the unmodified state). -/
theorem claim7_delayHierarchy (s : TimelockState) (h : Reachable s) :
    (∀ L1 L2 : ThreatLevel, L1.severity < L2.severity →
      getDelayForThreatLevel s L1 ≤ getDelayForThreatLevel s L2) ∧
    (∀ caller low med high crit e,
      updateThreatLevelDelays s caller low med high crit = .error e →
      (postState s (updateThreatLevelDelays s caller low med high crit)).lowThreatDelay
          = s.lowThreatDelay ∧
      (postState s (updateThreatLevelDelays s caller low med high crit)).mediumThreatDelay
          = s.mediumThreatDelay ∧
      (postState s (updateThreatLevelDelays s caller low med high crit)).highThreatDelay
          = s.highThreatDelay ∧
      (postState s (updateThreatLevelDelays s caller low med high crit)).criticalThreatDelay
          = s.criticalThreatDelay) := by
  have hm := reachable_tierMonotone h
  unfold TierMonotone at hm
  constructor
  · intro L1 L2 hl
    cases L1 <;> cases L2 <;>
      simp [ThreatLevel.severity] at hl <;>
      simp [getDelayForThreatLevel] <;>
      omega
  · intro caller low med high crit e he
    rw [he]
    exact ⟨rfl, rfl, rfl, rfl⟩

/-- Witness for C7: the freshly initialized deployment is reachable and its
Low-tier delay is at most its Critical-tier delay. -/
theorem claim7_delayHierarchy_witness :
    getDelayForThreatLevel wState .LOW ≤ getDelayForThreatLevel wState .CRITICAL :=
  (claim7_delayHierarchy wState (Reachable.init 1 [10] [10] 10 99 wState rfl)).1
    .LOW .CRITICAL (by decide)

set_option maxHeartbeats 1000000 in
/-- A successful external call that is not a queue request for id `k`
leaves an unqueued id `k` unqueued: only the two queue entry points ever
set the queued flag of an id. -/
theorem applyOp_preserves_unqueued {s s' : TimelockState} {k : TxKey} {o : Op}
    (h : applyOp s o = .ok s') (hnq : ¬ opQueuesId s k o)
    (hq : s.queuedTransactions k = false) : s'.queuedTransactions k = false := by
  cases o with
  | setJustToken c t =>
      simp only [applyOp, setJustToken] at h
      obtain ⟨r, hop, hy⟩ := exceptMap_ok_inv h
      subst hy
      repeat' split at hop
      all_goals first
        | exact Except.noConfusion hop
        | (injection hop with h2; subst h2; simpa using hq)
  | executeExpiredTransaction now c kk cs cr =>
      simp only [applyOp, executeExpiredTransaction] at h
      obtain ⟨r, hop, hy⟩ := exceptMap_ok_inv h
      subst hy
      repeat' split at hop
      all_goals first
        | exact Except.noConfusion hop
        | (injection hop with h2; subst h2; simpa using hq)
  | updateExecutorTokenThreshold c t =>
      simp only [applyOp, updateExecutorTokenThreshold] at h
      obtain ⟨r, hop, hy⟩ := exceptMap_ok_inv h
      subst hy
      repeat' split at hop
      all_goals first
        | exact Except.noConfusion hop
        | (injection hop with h2; subst h2; simpa using hq)
  | revokeContractRole c rr a =>
      simp only [applyOp] at h
      obtain ⟨r, hop, hy⟩ := exceptMap_ok_inv h
      subst hy
      rw [revokeContractRole] at hop
      repeat' split at hop
      all_goals try exact Except.noConfusion hop
      all_goals (
        first
          | (rename_i x s1 heq
             simp only [revokeRole] at heq)
          | (rename_i x s1 heq cond
             simp only [revokeRole] at heq)
        split at heq
        · exact Except.noConfusion heq
        · injection heq with h3
          subst h3
          injection hop with h2
          subst h2
          simpa [revokeRoleInternal] using hq)
  | grantContractRole c rr a =>
      simp only [applyOp] at h
      obtain ⟨r, hop, hy⟩ := exceptMap_ok_inv h
      subst hy
      rw [grantContractRole] at hop
      repeat' split at hop
      all_goals try exact Except.noConfusion hop
      all_goals (
        first
          | (rename_i x s1 heq
             simp only [grantRole] at heq)
          | (rename_i x s1 heq cond
             simp only [grantRole] at heq)
        split at heq
        · exact Except.noConfusion heq
        · injection heq with h3
          subst h3
          injection hop with h2
          subst h2
          simpa [grantRoleInternal] using hq)
  | queueTransactionWithThreatLevel now c b t v d =>
      simp only [opQueuesId] at hnq
      have hnq2 : ¬ (k = txHashOf t v d
          (now + getDelayForThreatLevel s (getThreatLevel s t d))) :=
        fun hh => hnq hh.symm
      simp only [applyOp, queueTransactionWithThreatLevel, queueTransactionInternal] at h
      obtain ⟨r, hop, hy⟩ := exceptMap_ok_inv h
      subst hy
      repeat' split at hop
      all_goals first
        | exact Except.noConfusion hop
        | (injection hop with h2; subst h2; simpa [upd, hnq2] using hq)
  | queueTransaction now c t v d delay =>
      simp only [opQueuesId] at hnq
      have hnq2 : ¬ (k = txHashOf t v d (now + delay)) := fun hh => hnq hh.symm
      simp only [applyOp, queueTransaction, queueTransactionInternal] at h
      obtain ⟨r, hop, hy⟩ := exceptMap_ok_inv h
      subst hy
      repeat' split at hop
      all_goals first
        | exact Except.noConfusion hop
        | (injection hop with h2; subst h2; simpa [upd, hnq2] using hq)
  | executeTransaction now c kk b cs cr =>
      simp only [applyOp, executeTransaction] at h
      obtain ⟨r, hop, hy⟩ := exceptMap_ok_inv h
      subst hy
      repeat' split at hop
      all_goals first
        | exact Except.noConfusion hop
        | (injection hop with h2; subst h2; simpa using hq)
  | markTransactionAsFailed c kk =>
      simp only [applyOp, markTransactionAsFailed] at h
      obtain ⟨r, hop, hy⟩ := exceptMap_ok_inv h
      subst hy
      repeat' split at hop
      all_goals first
        | exact Except.noConfusion hop
        | (injection hop with h2; subst h2; simpa using hq)
  | executeFailedTransaction now c kk cs cr =>
      simp only [applyOp, executeFailedTransaction] at h
      obtain ⟨r, hop, hy⟩ := exceptMap_ok_inv h
      subst hy
      repeat' split at hop
      all_goals first
        | exact Except.noConfusion hop
        | (injection hop with h2; subst h2; simpa using hq)
  | cancelTransaction c kk =>
      simp only [applyOp, cancelTransaction] at h
      obtain ⟨r, hop, hy⟩ := exceptMap_ok_inv h
      subst hy
      repeat' split at hop
      all_goals first
        | exact Except.noConfusion hop
        | (injection hop with h2; subst h2; simp [upd, hq])
  | updateDelays c a b g =>
      simp only [applyOp, updateDelays] at h
      obtain ⟨r, hop, hy⟩ := exceptMap_ok_inv h
      subst hy
      repeat' split at hop
      all_goals first
        | exact Except.noConfusion hop
        | (injection hop with h2; subst h2; simpa using hq)
  | updateThreatLevelDelays c a b cc d =>
      simp only [applyOp, updateThreatLevelDelays] at h
      obtain ⟨r, hop, hy⟩ := exceptMap_ok_inv h
      subst hy
      repeat' split at hop
      all_goals first
        | exact Except.noConfusion hop
        | (injection hop with h2; subst h2; simpa using hq)
  | setFunctionThreatLevel c sel l =>
      simp only [applyOp, setFunctionThreatLevel] at h
      obtain ⟨r, hop, hy⟩ := exceptMap_ok_inv h
      subst hy
      repeat' split at hop
      all_goals first
        | exact Except.noConfusion hop
        | (injection hop with h2; subst h2; simpa using hq)
  | setBatchFunctionThreatLevels c sels ls =>
      simp only [applyOp, setBatchFunctionThreatLevels] at h
      obtain ⟨r, hop, hy⟩ := exceptMap_ok_inv h
      subst hy
      repeat' split at hop
      all_goals first
        | exact Except.noConfusion hop
        | (injection hop with h2; subst h2; simpa using hq)
  | setAddressThreatLevel c t l =>
      simp only [applyOp, setAddressThreatLevel] at h
      obtain ⟨r, hop, hy⟩ := exceptMap_ok_inv h
      subst hy
      repeat' split at hop
      all_goals first
        | exact Except.noConfusion hop
        | (injection hop with h2; subst h2; simpa using hq)
  | setBatchAddressThreatLevels c ts ls =>
      simp only [applyOp, setBatchAddressThreatLevels] at h
      obtain ⟨r, hop, hy⟩ := exceptMap_ok_inv h
      subst hy
      repeat' split at hop
      all_goals first
        | exact Except.noConfusion hop
        | (injection hop with h2; subst h2; simpa using hq)
  | setPaused c p =>
      simp only [applyOp, setPaused] at h
      obtain ⟨r, hop, hy⟩ := exceptMap_ok_inv h
      subst hy
      repeat' split at hop
      all_goals first
        | exact Except.noConfusion hop
        | (injection hop with h2; subst h2; simpa using hq)

/-- Running a sequence of calls none of which queues id `k` leaves an
unqueued `k` unqueued. -/
theorem runOps_preserves_unqueued {k : TxKey} (os : List Op) (s : TimelockState)
    (hq : s.queuedTransactions k = false) (hnr : NoRequeue k s os) :
    (runOps s os).queuedTransactions k = false := by
  induction os generalizing s with
  | nil => simpa [runOps] using hq
  | cons o rest ih =>
      obtain ⟨h1, h2⟩ := hnr
      refine ih (runOp s o) ?_ h2
      unfold runOp
      cases happ : applyOp s o with
      | error e => simpa using hq
      | ok s1 => exact applyOp_preserves_unqueued happ h1 hq

/-- `executeTransaction` rejects every call on an id that is not queued. -/
theorem executeTransaction_not_queued {s : TimelockState} {k : TxKey}
    (hq : s.queuedTransactions k = false) (now : Nat) (caller : Addr)
    (balanceOf : Addr → Option Nat) (cs : Bool) (cr : Bytes) :
    ∃ e, executeTransaction s now caller k balanceOf cs cr = .error e := by
  rcases Bool.eq_false_or_eq_true s.paused with hp | hp
  · exact ⟨.EnforcedPause, by simp [executeTransaction, hp]⟩
  · exact ⟨.TxNotQueued k, by simp [executeTransaction, hp, hq]⟩

/-- State after canceling the queued witness transaction. -/
def c9AfterCancel : TimelockState :=
  postState wQueued (cancelTransaction wQueued 10 wKey)

/-- State after re-queueing the identical action at time `50` with delay
`50`: `eta = 100` again, so the content hash is the same `wKey`. -/
def c9AfterRequeue : TimelockState :=
  postState c9AfterCancel (queueTransaction c9AfterCancel 50 10 5 0 [] 50)

/-- C9 counterexample: a successful `cancelTransaction` sets
`canceled = true`, but it also clears the `queuedTransactions` flag, so the
identical `(target, value, payload, eta)` can be queued again under the
same id — and `executeTransaction` on that id then succeeds.  "After a
successful cancel the action can never be executed afterward" is false. -/
theorem claim9_counterexample :
    (cancelTransaction wQueued 10 wKey).isOk = true ∧
    (c9AfterCancel.timelockTransactions wKey).canceled = true ∧
    (queueTransaction c9AfterCancel 50 10 5 0 [] 50).isOk = true ∧
    (executeTransaction c9AfterRequeue 100 10 wKey noBal true []).isOk = true :=
  ⟨by decide, by decide, by decide, by decide⟩

/-- C9 (amended): `cancelTransaction` on an executed or already-canceled
record always fails; an authorized cancel of a queued, not-executed,
not-canceled record (while not paused) succeeds, sets `canceled = true`,
and clears the queued flag; and afterwards every `executeTransaction` on
that id is rejected as long as no queue request re-creates the same id —
the cancel clears the queued flag, so the same `(target, value, payload,
eta)` may be queued afresh, which is the one path that revives the id. -/
theorem claim9_amended (s : TimelockState) (caller : Addr) (k : TxKey) :
    ((s.timelockTransactions k).executed = true ∨
        (s.timelockTransactions k).canceled = true →
      ∃ e, cancelTransaction s caller k = .error e) ∧
    (s.paused = false → s.queuedTransactions k = true →
      (s.timelockTransactions k).executed = false →
      (s.timelockTransactions k).canceled = false →
      (hasRole s .GUARDIAN caller = true ∨ hasRole s .CANCELLER caller = true ∨
        hasRole s .PROPOSER caller = true) →
      (cancelTransaction s caller k).isOk = true ∧
      ((postState s (cancelTransaction s caller k)).timelockTransactions k).canceled
          = true ∧
      (postState s (cancelTransaction s caller k)).queuedTransactions k = false ∧
      (∀ os, NoRequeue k (postState s (cancelTransaction s caller k)) os →
        ∀ now2 caller2 balanceOf2 callSuccess2 callRet2, ∃ e,
          executeTransaction (runOps (postState s (cancelTransaction s caller k)) os)
            now2 caller2 k balanceOf2 callSuccess2 callRet2 = .error e)) := by
  constructor
  · intro hxc
    rcases Bool.eq_false_or_eq_true s.paused with hp | hp
    · exact ⟨.EnforcedPause, by simp [cancelTransaction, hp]⟩
    · rcases Bool.eq_false_or_eq_true (s.queuedTransactions k) with hqk | hqk
      · rcases Bool.eq_false_or_eq_true (s.timelockTransactions k).executed with hx | hx
        · exact ⟨.TxAlreadyExecuted k, by simp [cancelTransaction, hp, hqk, hx]⟩
        · rcases hxc with hxx | hcc
          · simp [hx] at hxx
          · exact ⟨.AlreadyCanceled k, by simp [cancelTransaction, hp, hqk, hx, hcc]⟩
      · exact ⟨.TxNotQueued k, by simp [cancelTransaction, hp, hqk]⟩
  · intro hp hq hx hc hauth
    have hcond : ¬ (hasRole s .GUARDIAN caller = false ∧
        hasRole s .CANCELLER caller = false ∧ hasRole s .PROPOSER caller = false) := by
      rcases hauth with h | h | h <;> simp [h]
    have heq : cancelTransaction s caller k =
        .ok ({ s with
          timelockTransactions := upd s.timelockTransactions k
            { s.timelockTransactions k with canceled := true }
          queuedTransactions := upd s.queuedTransactions k false },
          [.TransactionCanceled k]) := by
      simp [cancelTransaction, hp, hq, hx, hc, hcond]
    rw [heq]
    simp only [postState]
    refine ⟨by simp [Except.isOk, Except.toBool], by simp [upd], by simp [upd], ?_⟩
    intro os hnr now2 caller2 balanceOf2 callSuccess2 callRet2
    exact executeTransaction_not_queued
      (runOps_preserves_unqueued os _ (by simp [upd]) hnr)
      now2 caller2 balanceOf2 callSuccess2 callRet2

/-- Witness for C9 (amended): the admin (also a guardian) cancels the
queued witness transaction; the cancel succeeds, and with no further queue
request the id stays unexecutable. -/
theorem claim9_amended_witness :
    (cancelTransaction wQueued 10 wKey).isOk = true ∧
    (∃ e, executeTransaction
        (runOps (postState wQueued (cancelTransaction wQueued 10 wKey)) [])
        100 11 wKey noBal true [] = .error e) := by
  have h := (claim9_amended wQueued 10 wKey).2 (by decide) (by decide) (by decide)
    (by decide) (Or.inl (by decide))
  exact ⟨h.1, h.2.2.2 [] True.intro 100 11 noBal true []⟩

end Timelock
